import Mathlib

/-!
Verification development for the comfy-pack repository.

We shallowly embed the relevant parts of `src/comfy_pack/package.py`,
`src/comfy_pack/hash.py` and `nodes/api.py` as executable Lean
definitions.  The filesystem is modelled as an association list from
path strings to nodes (regular file with string content, symlink with a
target path, or directory).  `os.path.exists` / `Path.exists` follow
symlinks, `Path.is_symlink` does not, and `os.symlink` fails whenever a
directory entry (even a dangling symlink) is already present at the
target -- these POSIX semantics are load-bearing for several claims.
External effects (network downloads, git clones, subprocess runs,
interactive input) are parameters: oracles mapping a request to its
outcome.
-/

set_option autoImplicit false

namespace ComfyPack

/-! ## Generic association-list maps (string-keyed) -/

def alookup {α : Type} : List (String × α) → String → Option α
  | [], _ => none
  | (k, v) :: rest, p => if k = p then some v else alookup rest p

def aerase {α : Type} : List (String × α) → String → List (String × α)
  | [], _ => []
  | (k, v) :: rest, p => if k = p then aerase rest p else (k, v) :: aerase rest p

/-- Insert with overwrite: the new binding shadows and removes any old one. -/
def aupdate {α : Type} (l : List (String × α)) (p : String) (v : α) : List (String × α) :=
  (p, v) :: aerase l p

theorem alookup_aerase_ne {α : Type} (l : List (String × α)) (p q : String) (h : p ≠ q) :
    alookup (aerase l q) p = alookup l p := by
  induction l with
  | nil => rfl
  | cons e rest ih =>
    obtain ⟨k, v⟩ := e
    have hq : ¬ q = p := fun hh => h hh.symm
    by_cases hk : k = q
    · have hkp : ¬ k = p := by rw [hk]; exact hq
      simp [aerase, alookup, hk, hkp, hq, ih]
    · by_cases hp : k = p
      · simp [aerase, alookup, hk, hp, h]
      · simp [aerase, alookup, hk, hp, ih]

theorem alookup_aerase_self {α : Type} (l : List (String × α)) (p : String) :
    alookup (aerase l p) p = none := by
  induction l with
  | nil => rfl
  | cons e rest ih =>
    obtain ⟨k, v⟩ := e
    by_cases hk : k = p
    · simp [aerase, hk, ih]
    · simp [aerase, alookup, hk, ih]

theorem alookup_aupdate_self {α : Type} (l : List (String × α)) (p : String) (v : α) :
    alookup (aupdate l p v) p = some v := by
  simp [aupdate, alookup]

theorem alookup_aupdate_ne {α : Type} (l : List (String × α)) (p q : String) (v : α)
    (h : p ≠ q) : alookup (aupdate l q v) p = alookup l p := by
  have hq : ¬ q = p := fun hh => h hh.symm
  simp only [aupdate, alookup, if_neg hq]
  exact alookup_aerase_ne l p q h

/-! ## String helpers (models of Python string operations) -/

/-- Model of `str.startswith` on character lists. -/
def listStarts : List Char → List Char → Bool
  | [], _ => true
  | _ :: _, [] => false
  | a :: as, b :: bs => a == b && listStarts as bs

/-- Does `n` occur as a contiguous run inside `h`? -/
def listHasSub (n : List Char) : List Char → Bool
  | [] => listStarts n []
  | c :: cs => listStarts n (c :: cs) || listHasSub n cs

/-- Model of Python `needle in hay` on strings. -/
def strContains (hay needle : String) : Bool :=
  listHasSub needle.data hay.data

/-- Python whitespace test used by `str.strip` (ASCII subset). -/
def isPySpace (c : Char) : Bool :=
  c == ' ' || c == '\t' || c == '\n' || c == '\r' || c == '\x0b' || c == '\x0c'

/-- Model of `str.strip()`: drop leading and trailing whitespace.  (Defined
by structural recursion so that the kernel can evaluate it on literals.) -/
def strStrip (s : String) : String :=
  String.mk (((s.data.dropWhile isPySpace).reverse.dropWhile isPySpace).reverse)

/-- Path join: `a / b` in pathlib, for paths modelled as plain strings. -/
def pjoin (a b : String) : String := a ++ "/" ++ b

def lastPart : List String → String
  | [] => ""
  | [a] => a
  | _ :: b :: rest => lastPart (b :: rest)

/-- Model of `url.split("/")[-1].split(".")[0]` from `install_custom_modules`. -/
def moduleDirName (url : String) : String :=
  match (lastPart (url.splitOn "/")).splitOn "." with
  | [] => ""
  | a :: _ => a

/-! ## Filesystem model -/

inductive FSNode where
  | file (content : String)
  | symlink (target : String)
  | dir
deriving DecidableEq, Repr

/-- A filesystem: directory entries keyed by full path string. -/
abbrev FS := List (String × FSNode)

/-- Resolve a path, following symlinks up to `fuel` hops
(models the kernel's ELOOP bound; `os.path.exists` returns `False` on error). -/
def FS.resolve (fs : FS) : Nat → String → Option FSNode
  | fuel, p =>
    match alookup fs p with
    | some (.symlink t) =>
      match fuel with
      | 0 => none
      | f + 1 => FS.resolve fs f t
    | other => other

/-- Model of `Path.exists` / `os.path.exists`: follows symlinks. -/
def FS.existsF (fs : FS) (p : String) : Bool := (FS.resolve fs 40 p).isSome

/-- Model of `Path.is_symlink`: looks at the entry itself. -/
def FS.isSymlink (fs : FS) (p : String) : Bool :=
  match alookup fs p with
  | some (.symlink _) => true
  | _ => false

/-- Model of `Path.is_file`: follows symlinks, true iff a regular file. -/
def FS.isFileF (fs : FS) (p : String) : Bool :=
  match FS.resolve fs 40 p with
  | some (.file _) => true
  | _ => false

/-- Read a file's bytes through symlinks (model of opening a path for read). -/
def FS.readF (fs : FS) (p : String) : Option String :=
  match FS.resolve fs 40 p with
  | some (.file c) => some c
  | _ => none

/-- Model of `shutil.rmtree p`: removes `p` and every entry below it. -/
def FS.rmtree (fs : FS) (p : String) : FS :=
  fs.filter (fun e => !(e.1 == p) && !(listStarts (p ++ "/").data e.1.data))

/-! ## `create_model_symlink` (package.py lines 271-283) -/

/-- Model of `os.symlink(source, target)`: raises `FileExistsError` whenever a
directory entry is already present at `target`, dangling symlinks included. -/
def os_symlink (fs : FS) (source target : String) : Except String FS :=
  match alookup fs target with
  | some _ => Except.error "FileExistsError"
  | none => Except.ok (aupdate fs target (.symlink source))

/-- Model of `create_model_symlink(global_path, sha, target_path, filename)`:
if the target `exists()` (following symlinks) and is a symlink, unlink it
first; if it exists and is not a symlink, raise `RuntimeError`; then call
`os.symlink`.  The `mkdir(parents=True)` call has no counterpart in our flat
path model. -/
def create_model_symlink (fs : FS) (global_path sha target_path filename : String) :
    Except String FS :=
  let source := pjoin global_path sha
  let target := pjoin target_path filename
  if FS.existsF fs target then
    if FS.isSymlink fs target then
      os_symlink (aerase fs target) source target
    else
      Except.error "RuntimeError"
  else
    os_symlink fs source target

/-! ## `download_file` and `retrieve_models` (package.py lines 219-437)

The network is an oracle `String → Option String`: `some c` means the fetch
of that URL succeeds and delivers content `c`; `none` means it fails (in
which case `download_file` unlinks any file at the destination and returns
`False`).  The interactive `input()` loop consumes a finite list of operator
inputs; an exhausted list models the operator giving no further input.
Each mutation of the filesystem appends the new state to a trace, so
properties about intermediate states ("at no point ...") are statable. -/

structure ModelEntry where
  sha256 : Option String
  filename : String
  disabled : Bool := false
  bundled : Bool := false
  source : Option String := none
deriving DecidableEq, Repr

inductive OpInput where
  | skip
  | url (u : String)
  | localPath (p : String)
deriving DecidableEq, Repr

/-- Model of `download_file(url, dest_path)`: on success the destination holds
the downloaded content; on failure the destination is unlinked. -/
def download_file (oracle : String → Option String) (fs : FS) (url dest : String) :
    FS × Bool :=
  match oracle url with
  | some c => (aupdate fs dest (.file c), true)
  | none => (aerase fs dest, false)

/-- Outcome of resolving one manifest entry: the trace of filesystem states
(initial state first, one entry per mutation) and, when an uncaught Python
exception would escape `retrieve_models`, its description. -/
abbrev RunOut := List FS × Option String

/-- The interactive `while True` loop at the end of `retrieve_models`
(package.py lines 378-437).  The whole loop body sits in a `try` whose
`except` clause continues the loop, so errors from `create_model_symlink`
are swallowed here (unlike in the earlier automatic branches). -/
def manualLoop (oracle : String → Option String) (hash : String → String)
    (store ws sha filename : String) :
    List OpInput → FS → List FS → RunOut
  | [], _, tr => (tr, none)
  | inp :: rest, fs, tr =>
    match inp with
    | .skip => (tr, none)
    | .url u =>
      let target := pjoin store sha
      let fs1 := (download_file oracle fs u target).1
      let tr1 := tr ++ [fs1]
      if FS.existsF fs1 target then
        match FS.readF fs1 target with
        | some c =>
          if hash c == sha then
            match create_model_symlink fs1 store sha ws filename with
            | .ok fs2 => (tr1 ++ [fs2], none)
            | .error _ => manualLoop oracle hash store ws sha filename rest fs1 tr1
          else
            let fs2 := aerase fs1 target
            manualLoop oracle hash store ws sha filename rest fs2 (tr1 ++ [fs2])
        | none => manualLoop oracle hash store ws sha filename rest fs1 tr1
      else
        manualLoop oracle hash store ws sha filename rest fs1 tr1
    | .localPath p =>
      if FS.existsF fs p then
        match FS.readF fs p with
        | some c =>
          if hash c == sha then
            let fs1 := aupdate fs (pjoin store sha) (.file c)
            let tr1 := tr ++ [fs1]
            match create_model_symlink fs1 store sha ws filename with
            | .ok fs2 => (tr1 ++ [fs2], none)
            | .error _ => manualLoop oracle hash store ws sha filename rest fs1 tr1
          else
            manualLoop oracle hash store ws sha filename rest fs tr
        | none => manualLoop oracle hash store ws sha filename rest fs tr
      else
        manualLoop oracle hash store ws sha filename rest fs tr

/-- The remote-source branch of `retrieve_models` (package.py lines 352-372)
followed by the manual loop.  On a successful download whose hash matches,
the code hits `else: continue` -- no symlink is created.  On mismatch the
staged file at `<store>/<sha>` is unlinked and control falls through to the
manual loop. -/
def sourceStep (oracle : String → Option String) (hash : String → String)
    (store ws sha filename : String) (source : Option String)
    (inputs : List OpInput) (fs : FS) (tr : List FS) : RunOut :=
  match source with
  | some u =>
    let stPath := pjoin store sha
    let fs1 := (download_file oracle fs u stPath).1
    let tr1 := tr ++ [fs1]
    if FS.existsF fs1 stPath then
      match FS.readF fs1 stPath with
      | some c =>
        if hash c == sha then
          (tr1, none)
        else
          let fs2 := aerase fs1 stPath
          manualLoop oracle hash store ws sha filename inputs fs2 (tr1 ++ [fs2])
      | none => (tr1, some "get_sha256 failed")
    else
      (tr1, none)
  | none => manualLoop oracle hash store ws sha filename inputs fs tr

/-- Resolution of a single manifest entry: the body of the `for model in
models` loop of `retrieve_models` (package.py lines 302-437). -/
def retrieveEntry (oracle : String → Option String) (hash : String → String)
    (store ws : String) (m : ModelEntry) (download all_models : Bool)
    (packDir : Option String) (inputs : List OpInput) (fs : FS) : RunOut :=
  match m.sha256 with
  | none => ([fs], none)
  | some sha =>
    let tr := [fs]
    let wsPath := pjoin ws m.filename
    let stPath := pjoin store sha
    if FS.existsF fs wsPath then
      if !(FS.existsF fs stPath) && FS.isFileF fs wsPath then
        match alookup fs wsPath with
        | some node =>
          let fs1 := aupdate (aerase fs wsPath) stPath node
          let tr1 := tr ++ [fs1]
          match create_model_symlink fs1 store sha ws m.filename with
          | .ok fs2 => (tr1 ++ [fs2], none)
          | .error e => (tr1, some e)
        | none => (tr, none)
      else (tr, none)
    else if FS.existsF fs stPath then
      match create_model_symlink fs store sha ws m.filename with
      | .ok fs1 => (tr ++ [fs1], none)
      | .error e => (tr, some e)
    else if m.disabled && !all_models then (tr, none)
    else
      match packDir with
      | some pd =>
        if m.bundled then
          let bp := pjoin (pjoin pd "models") sha
          if FS.existsF fs bp then
            match FS.readF fs bp with
            | some c =>
              let fs1 := aupdate fs stPath (.file c)
              let tr1 := tr ++ [fs1]
              match create_model_symlink fs1 store sha ws m.filename with
              | .ok fs2 => (tr1 ++ [fs2], none)
              | .error e => (tr1, some e)
            | none => (tr, some "copy failed")
          else if !download then (tr, none)
          else sourceStep oracle hash store ws sha m.filename m.source inputs fs tr
        else if !download then (tr, none)
        else sourceStep oracle hash store ws sha m.filename m.source inputs fs tr
      | none =>
        if !download then (tr, none)
        else sourceStep oracle hash store ws sha m.filename m.source inputs fs tr

/-- The `retrieve_models` pass: resolve every entry in order; an uncaught
exception from one entry aborts the whole pass (models Python exception
propagation out of the `for` loop). -/
def retrieve_models (oracle : String → Option String) (hash : String → String)
    (store ws : String) (download all_models : Bool) (packDir : Option String)
    (inputs : List OpInput) : List ModelEntry → FS → RunOut
  | [], fs => ([fs], none)
  | m :: rest, fs =>
    let (tr, e) := retrieveEntry oracle hash store ws m download all_models packDir inputs fs
    match e with
    | some err => (tr, some err)
    | none =>
      let fsLast := tr.getLastD fs
      let (tr2, e2) := retrieve_models oracle hash store ws download all_models packDir
        inputs rest fsLast
      (tr ++ tr2.drop 1, e2)

/-! ## Installer pipeline (package.py lines 26-207)

`git clone`-based stages are modelled with a success oracle
`cloneOk : String → String → Bool` (url, commit) and subprocess runs with
`runOk : String → Bool` keyed by a command label.  Each stage returns the
new filesystem, the list of externally visible actions it performed, and
`some err` when a subprocess failure (a raised `CalledProcessError` or
`StopIteration`) would abort the stage. -/

inductive Act where
  | rmtreeA (p : String)
  | cloneA (url commit dir : String)
  | runA (cmd : String)
  | writeA (p content : String)
deriving DecidableEq, Repr

/-- The marker check shared by `install_comfyui` and `install_custom_modules`:
the `.DONE` file exists and its text, stripped, equals the requested commit. -/
def markerMatches (fs : FS) (p : String) (commit : String) : Bool :=
  if FS.existsF fs p then
    match FS.readF fs p with
    | some t => strStrip t == commit
    | none => false
  else false

structure Snapshot where
  comfyui : String
  git_custom_nodes : List (String × String)
deriving DecidableEq, Repr

/-- Model of `install_comfyui(snapshot, workspace)` (package.py lines 59-83):
skip when the workspace exists and its `.DONE` marker matches the requested
commit; otherwise remove the workspace (if present), clone ComfyUI at the
pinned commit (`_clone_commit`, whose success is the oracle `cloneOk`; a
failure raises `CalledProcessError`), locate the ComfyUI-Manager node in
`git_custom_nodes` (`next(...)` raises `StopIteration` when absent), clone
it, and only after all of that write the marker. -/
def install_comfyui (cloneOk : String → String → Bool) (repo : String)
    (snap : Snapshot) (ws : String) (fs : FS) : FS × List Act × Option String :=
  let commit := snap.comfyui
  let marker := pjoin ws ".DONE"
  if FS.existsF fs ws && markerMatches fs marker commit then
    (fs, [], none)
  else
    let fs1 := if FS.existsF fs ws then FS.rmtree fs ws else fs
    let acts1 : List Act := if FS.existsF fs ws then [Act.rmtreeA ws] else []
    if cloneOk repo commit then
      let fs2 := aupdate fs1 ws .dir
      let acts2 := acts1 ++ [Act.cloneA repo commit ws]
      match (snap.git_custom_nodes.filter (fun e => strContains e.1 "ComfyUI-Manager")).head? with
      | none => (fs2, acts2, some "StopIteration")
      | some mgr =>
        let mdir := pjoin (pjoin ws "custom_nodes") "ComfyUI-Manager"
        if cloneOk mgr.1 (strStrip mgr.2) then
          (aupdate (aupdate fs2 mdir .dir) marker (.file commit),
            acts2 ++ [Act.cloneA mgr.1 (strStrip mgr.2) mdir, Act.writeA marker commit], none)
        else
          (fs2, acts2 ++ [Act.cloneA mgr.1 (strStrip mgr.2) mdir], some "CalledProcessError")
    else
      (fs1, acts1 ++ [Act.cloneA repo commit ws], some "CalledProcessError")

structure ModuleSpec where
  url : String
  commit_hash : String
deriving DecidableEq, Repr

/-- Model of one iteration of the `for module in snapshot["custom_nodes"]`
loop of `install_custom_modules` (package.py lines 88-135): an entry with a
whitespace-only url is skipped; a matching `.DONE` marker short-circuits;
otherwise the module directory is removed (if present), the module cloned
at its pinned commit, its `install.py` executed when present, and the
marker written last. -/
def installModule (cloneOk : String → String → Bool) (runOk : String → Bool)
    (ws : String) (m : ModuleSpec) (fs : FS) : FS × List Act × Option String :=
  if strStrip m.url == "" then (fs, [], none)
  else
    let mdir := pjoin (pjoin ws "custom_nodes") (moduleDirName m.url)
    let marker := pjoin mdir ".DONE"
    if FS.existsF fs mdir && markerMatches fs marker m.commit_hash then
      (fs, [], none)
    else
      let fs1 := if FS.existsF fs mdir then FS.rmtree fs mdir else fs
      let acts1 : List Act := if FS.existsF fs mdir then [Act.rmtreeA mdir] else []
      if cloneOk m.url m.commit_hash then
        let fs2 := aupdate fs1 mdir .dir
        let acts2 := acts1 ++ [Act.cloneA m.url m.commit_hash mdir]
        let setup := pjoin mdir "install.py"
        if FS.existsF fs2 setup then
          if runOk setup then
            (aupdate fs2 marker (.file m.commit_hash),
              acts2 ++ [Act.runA setup, Act.writeA marker m.commit_hash], none)
          else
            (fs2, acts2 ++ [Act.runA setup], some "CalledProcessError")
        else
          (aupdate fs2 marker (.file m.commit_hash),
            acts2 ++ [Act.writeA marker m.commit_hash], none)
      else
        (fs1, acts1 ++ [Act.cloneA m.url m.commit_hash mdir], some "CalledProcessError")

/-- Model of `install_custom_modules`: the loop over all module descriptors,
aborting on the first uncaught subprocess failure. -/
def install_custom_modules (cloneOk : String → String → Bool) (runOk : String → Bool)
    (ws : String) : List ModuleSpec → FS → FS × List Act × Option String
  | [], fs => (fs, [], none)
  | m :: rest, fs =>
    match installModule cloneOk runOk ws m fs with
    | (fs1, a1, none) =>
      let r := install_custom_modules cloneOk runOk ws rest fs1
      (r.1, a1 ++ r.2.1, r.2.2)
    | (fs1, a1, some e) => (fs1, a1, some e)

/-- Model of `install_dependencies` (package.py lines 138-207) in the
default `no_venv=false` mode.  Note the completion marker of this stage is
the file `DONE` (no leading dot) inside the `.venv` directory, written with
the literal text `DONE`, and its check is an early return before any
subprocess runs. -/
def install_dependencies (runOk : String → Bool) (ws : String) (fs : FS) :
    FS × List Act × Option String :=
  let venv := pjoin ws ".venv"
  let marker := pjoin venv "DONE"
  if FS.existsF fs marker then (fs, [], none)
  else if !runOk "uv venv" then (fs, [Act.runA "uv venv"], some "CalledProcessError")
  else
    let fs1 := aupdate fs venv .dir
    let acts1 := [Act.runA "uv venv"]
    if !runOk "uv pip install pip" then
      (fs1, acts1 ++ [Act.runA "uv pip install pip"], some "CalledProcessError")
    else if !runOk "uv pip install reqs" then
      (fs1, acts1 ++ [Act.runA "uv pip install pip", Act.runA "uv pip install reqs"],
        some "CalledProcessError")
    else
      (aupdate fs1 marker (.file "DONE"),
        acts1 ++ [Act.runA "uv pip install pip", Act.runA "uv pip install reqs",
          Act.writeA marker "DONE"], none)

/-! ## Hash cache batches (hash.py lines 28-127)

Live files are an oracle `String → Option FileInfo`; the hashing worker
subprocess is an oracle `String → Option String` (`none` models a non-zero
exit, which `calculate_sha256_worker` turns into a raised `AssertionError`).
The persisted cache file is observed twice (load phase and read-merge-write
phase); each observation is `absent`, `corrupt` (present but not valid
JSON), or `good c`. -/

structure CacheEntry where
  sha256 : String
  size : Nat
  birthtime : Nat
deriving DecidableEq, Repr

abbrev Cache := List (String × CacheEntry)

structure FileInfo where
  size : Nat
  ctime : Nat
deriving DecidableEq, Repr

inductive CacheFile where
  | absent
  | corrupt
  | good (c : Cache)
deriving DecidableEq, Repr

structure BatchOut where
  results : List (String × Option String)
  computed : List String
  written : Option Cache
  err : Option String
deriving DecidableEq, Repr

/-- The `for filepath in filepaths` loop of `async_batch_get_sha256`
(hash.py lines 75-110): returns the per-path results, the new cache entries,
the list of paths whose bytes were actually read by a worker, and `some err`
when a worker failure aborted the loop. -/
def processFiles (filesF : String → Option FileInfo) (worker : String → Option String)
    (cache : Cache) (cacheOnly : Bool) :
    List String → List (String × Option String) × Cache × List String × Option String
  | [] => ([], [], [], none)
  | fp :: rest =>
    match filesF fp with
    | none =>
      let r := processFiles filesF worker cache cacheOnly rest
      ((fp, none) :: r.1, r.2)
    | some fi =>
      match alookup cache fp with
      | some e =>
        if e.size == fi.size && e.birthtime == fi.ctime then
          let r := processFiles filesF worker cache cacheOnly rest
          ((fp, some e.sha256) :: r.1, r.2)
        else if cacheOnly then
          let r := processFiles filesF worker cache cacheOnly rest
          ((fp, some "") :: r.1, r.2)
        else
          match worker fp with
          | none => ([], [], [fp], some "AssertionError")
          | some h =>
            let r := processFiles filesF worker cache cacheOnly rest
            ((fp, some h) :: r.1,
              aupdate r.2.1 fp ⟨h, fi.size, fi.ctime⟩, fp :: r.2.2.1, r.2.2.2)
      | none =>
        if cacheOnly then
          let r := processFiles filesF worker cache cacheOnly rest
          ((fp, some "") :: r.1, r.2)
        else
          match worker fp with
          | none => ([], [], [fp], some "AssertionError")
          | some h =>
            let r := processFiles filesF worker cache cacheOnly rest
            ((fp, some h) :: r.1,
              aupdate r.2.1 fp ⟨h, fi.size, fi.ctime⟩, fp :: r.2.2.1, r.2.2.2)

/-- Fold the freshly computed entries into a cache (`cache.update(new_cache)`). -/
def cacheUpdateAll (base : Cache) : Cache → Cache
  | [] => base
  | (p, e) :: rest => cacheUpdateAll (aupdate base p e) rest

/-- Model of `async_batch_get_sha256(filepaths, cache_only)` (hash.py lines
52-127).  Load phase: a missing or unparseable cache file yields the empty
cache (both `json.JSONDecodeError` and `IOError` are caught there).  After
the loop, the cache file is re-read for the merge: there only `IOError` and
`OSError` are caught, so a `corrupt` file raises `json.JSONDecodeError`
out of the whole call.  A failed final write is swallowed. -/
def async_batch_get_sha256 (filesF : String → Option FileInfo)
    (worker : String → Option String) (loadFile saveFile : CacheFile)
    (writeOk : Bool) (filepaths : List String) (cacheOnly : Bool) : BatchOut :=
  let cache : Cache :=
    match loadFile with
    | .good c => c
    | _ => []
  let r := processFiles filesF worker cache cacheOnly filepaths
  match r.2.2.2 with
  | some e => ⟨r.1, r.2.2.1, none, some e⟩
  | none =>
    match saveFile with
    | .corrupt => ⟨r.1, r.2.2.1, none, some "JSONDecodeError"⟩
    | .absent =>
      let merged := cacheUpdateAll [] r.2.1
      if writeOk then ⟨r.1, r.2.2.1, some merged, none⟩ else ⟨r.1, r.2.2.1, none, none⟩
    | .good c2 =>
      let merged := cacheUpdateAll c2 r.2.1
      if writeOk then ⟨r.1, r.2.2.1, some merged, none⟩ else ⟨r.1, r.2.2.1, none, none⟩

/-! ## Bundling metadata (nodes/api.py lines 234-254) -/

structure BundleModel where
  filename : String
  sha256 : Option String
  disabled : Bool := false
  bundled : Bool := false
deriving DecidableEq, Repr

/-- Python truthiness of the optional `sha256` field: `None` and `""` are
both falsy under `if not model.get("sha256")`. -/
def shaFalsy : Option String → Bool
  | none => true
  | some s => s == ""

/-- Model of the body of `_update_model_metadata_for_bundling` for one model
dict: `hashStr` models `hashlib.sha256(· .encode("utf-8")).hexdigest()` and
`fileAt` models `(Path(folder_paths.base_path) / filename).exists()`. -/
def updateModelForBundling (hashStr : String → String) (fileAt : String → Bool)
    (m : BundleModel) : BundleModel :=
  if m.disabled then m
  else if m.filename == "" then m
  else if !fileAt m.filename then m
  else
    let m1 := if shaFalsy m.sha256 then { m with sha256 := some (hashStr m.filename) } else m
    { m1 with bundled := true }

/-- Model of `_update_model_metadata_for_bundling(models)`: the in-place
mutation of every list element. -/
def update_model_metadata_for_bundling (hashStr : String → String)
    (fileAt : String → Bool) (models : List BundleModel) : List BundleModel :=
  models.map (updateModelForBundling hashStr fileAt)

/-! ## Concrete demonstration material

A small deterministic hash oracle and network oracles used by the concrete
scenario theorems below. -/

def demoHash : String → String := fun c => if c = "CONTENT" then "deadbeef" else "0bad0bad"

def demoOracle : String → Option String :=
  fun u => if u = "https://example/a.bin" then some "CONTENT" else none

def demoOracleBad : String → Option String :=
  fun u => if u = "https://example/a.bin" then some "EVIL" else none

def demoEntry : ModelEntry :=
  { sha256 := some "deadbeef", filename := "checkpoints/a.safetensors",
    disabled := false, bundled := false, source := some "https://example/a.bin" }

/-! Concrete installer material for witnesses. -/

def demoSnap : Snapshot :=
  { comfyui := "c0ffee",
    git_custom_nodes := [("https://github.com/x/ComfyUI-Manager.git", "beef")] }

def demoModule : ModuleSpec :=
  { url := "https://g.com/NodeA.git", commit_hash := "abc" }

def demoCloneOk : String → String → Bool := fun _ _ => true

def demoRunOk : String → Bool := fun _ => true

/-! Concrete hash-batch material for witnesses. -/

def demoFiles : String → Option FileInfo :=
  fun p => if p = "a" then some ⟨10, 5⟩ else if p = "b" then some ⟨3, 7⟩ else none

def demoWorker : String → Option String :=
  fun p => if p = "a" then some "HA" else if p = "b" then some "HB" else some "HX"

def demoWorkerFail : String → Option String :=
  fun p => if p = "a" then none else some "HB"

/-- The cache-validity test of `async_batch_get_sha256` (hash.py lines
88-91): a cache entry is used only when its recorded size and change-time
both equal the live file's. -/
def cacheValid (cache : Cache) (fp : String) (fi : FileInfo) : Bool :=
  match alookup cache fp with
  | some e => e.size == fi.size && e.birthtime == fi.ctime
  | none => false

/-! ## Helper lemmas -/

/-- Number of bindings a key has in an association list. -/
def countKey {α : Type} (l : List (String × α)) (p : String) : Nat :=
  (l.filter (fun e => e.1 == p)).length

theorem countKey_aerase {α : Type} (l : List (String × α)) (p : String) :
    countKey (aerase l p) p = 0 := by
  induction l with
  | nil => rfl
  | cons e rest ih =>
    obtain ⟨k, v⟩ := e
    by_cases hk : k = p
    · simp [aerase, hk, ih]
    · simp [aerase, countKey, List.filter, hk] at *
      exact ih

theorem countKey_aupdate_self {α : Type} (l : List (String × α)) (p : String) (v : α) :
    countKey (aupdate l p v) p = 1 := by
  have h := countKey_aerase l p
  simp [aupdate, countKey, List.filter] at *
  exact h

theorem countKey_aupdate_ne {α : Type} (l : List (String × α)) (p q : String) (v : α)
    (h : p ≠ q) : countKey (aupdate l q v) p = countKey (aerase l q) p := by
  have hq : (q == p) = false := by
    simp only [beq_eq_false_iff_ne, ne_eq]
    exact fun hh => h hh.symm
  simp [aupdate, countKey, List.filter, hq]

theorem countKey_aerase_ne {α : Type} (l : List (String × α)) (p q : String)
    (h : p ≠ q) : countKey (aerase l q) p = countKey l p := by
  induction l with
  | nil => rfl
  | cons e rest ih =>
    obtain ⟨k, v⟩ := e
    by_cases hk : k = q
    · have hkp : (k == p) = false := by
        simp only [beq_eq_false_iff_ne, ne_eq, hk]
        exact fun hh => h hh.symm
      simp only [aerase, if_pos hk, countKey, List.filter] at *
      rw [hkp]
      exact ih
    · by_cases hp : k = p
      · simp only [aerase, if_neg hk, countKey, List.filter] at *
        rw [show (k == p) = true by simp [hp]]
        simpa using ih
      · simp only [aerase, if_neg hk, countKey, List.filter] at *
        rw [show (k == p) = false by simp [hp]]
        exact ih

theorem not_mem_aerase_self {α : Type} (l : List (String × α)) (p : String) (v : α) :
    (p, v) ∉ aerase l p := by
  induction l with
  | nil => simp [aerase]
  | cons e rest ih =>
    obtain ⟨k, w⟩ := e
    by_cases hk : k = p
    · simpa [aerase, hk] using ih
    · simp only [aerase, if_neg hk, List.mem_cons]
      rintro (h | h)
      · exact hk (by injection h with h1 h2; exact h1.symm)
      · exact ih h

theorem mem_of_mem_aerase {α : Type} {l : List (String × α)} {q : String}
    {e : String × α} (h : e ∈ aerase l q) : e ∈ l := by
  induction l with
  | nil => simp [aerase] at h
  | cons a rest ih =>
    obtain ⟨k, w⟩ := a
    by_cases hk : k = q
    · simp only [aerase, if_pos hk] at h
      exact List.mem_cons_of_mem _ (ih h)
    · simp only [aerase, if_neg hk, List.mem_cons] at h
      rcases h with h | h
      · exact h ▸ List.mem_cons_self _ _
      · exact List.mem_cons_of_mem _ (ih h)

theorem eq_of_mem_aupdate_self {α : Type} (l : List (String × α)) (p : String)
    (v e : α) (h : (p, v) ∈ aupdate l p e) : v = e := by
  rcases List.mem_cons.mp h with hh | hh
  · exact congrArg Prod.snd hh
  · exact absurd hh (not_mem_aerase_self _ _ _)

theorem listStarts_append (l m : List Char) : listStarts l (l ++ m) = true := by
  induction l with
  | nil => rfl
  | cons a as ih => simp [listStarts, ih]

theorem strStarts_append (a b : String) : listStarts a.data (a ++ b).data = true := by
  have h : (a ++ b).data = a.data ++ b.data := rfl
  rw [h]
  exact listStarts_append a.data b.data

theorem append_ne_of_ne {a s t : String} (h : s ≠ t) : a ++ s ≠ a ++ t := by
  intro hh
  apply h
  have hd : (a ++ s).data = (a ++ t).data := by rw [hh]
  have hd2 : a.data ++ s.data = a.data ++ t.data := hd
  exact String.ext (List.append_cancel_left hd2)

theorem pjoin_ne_left (a b : String) : pjoin a b ≠ a := by
  intro h
  have hlen := congrArg String.length h
  have hone : ("/" : String).length = 1 := rfl
  simp only [pjoin, String.length_append, hone] at hlen
  omega

theorem pjoin_ne_of_ne (a : String) {s t : String} (h : s ≠ t) :
    pjoin a s ≠ pjoin a t := by
  have h2 : "/" ++ s ≠ "/" ++ t := append_ne_of_ne h
  have h3 : a ++ ("/" ++ s) ≠ a ++ ("/" ++ t) := append_ne_of_ne h2
  simpa [pjoin, String.append_assoc] using h3

/-! Resolution helpers: looking up a plain file or directory ignores fuel. -/

theorem FS.resolve_file {fs : FS} {p : String} {c : String} (n : Nat)
    (h : alookup fs p = some (.file c)) : FS.resolve fs n p = some (.file c) := by
  unfold FS.resolve
  rw [h]

theorem FS.resolve_dir {fs : FS} {p : String} (n : Nat)
    (h : alookup fs p = some .dir) : FS.resolve fs n p = some .dir := by
  unfold FS.resolve
  rw [h]

theorem FS.resolve_none {fs : FS} {p : String} (n : Nat)
    (h : alookup fs p = none) : FS.resolve fs n p = none := by
  unfold FS.resolve
  rw [h]

theorem FS.existsF_file {fs : FS} {p : String} {c : String}
    (h : alookup fs p = some (.file c)) : FS.existsF fs p = true := by
  simp [FS.existsF, FS.resolve_file 40 h]

theorem FS.existsF_dir {fs : FS} {p : String}
    (h : alookup fs p = some .dir) : FS.existsF fs p = true := by
  simp [FS.existsF, FS.resolve_dir 40 h]

theorem FS.existsF_none {fs : FS} {p : String}
    (h : alookup fs p = none) : FS.existsF fs p = false := by
  simp [FS.existsF, FS.resolve_none 40 h]

theorem FS.isFileF_file {fs : FS} {p : String} {c : String}
    (h : alookup fs p = some (.file c)) : FS.isFileF fs p = true := by
  simp [FS.isFileF, FS.resolve_file 40 h]

theorem FS.readF_file {fs : FS} {p : String} {c : String}
    (h : alookup fs p = some (.file c)) : FS.readF fs p = some c := by
  simp [FS.readF, FS.resolve_file 40 h]

theorem alookup_rmtree_under {fs : FS} {p q : String}
    (h : listStarts (p ++ "/").data q.data = true) :
    alookup (FS.rmtree fs p) q = none := by
  induction fs with
  | nil => rfl
  | cons e rest ih =>
    obtain ⟨k, v⟩ := e
    by_cases hk : k = q
    · subst hk
      simp only [FS.rmtree, List.filter] at *
      rw [h]
      simpa [FS.rmtree] using ih
    · simp only [FS.rmtree, List.filter] at *
      cases hcond : (!(k == p) && !(listStarts (p ++ "/").data k.data)) with
      | false => simpa [FS.rmtree] using ih
      | true =>
        simp only [alookup, if_neg hk]
        simpa [FS.rmtree] using ih

theorem alookup_rmtree_self (fs : FS) (p : String) :
    alookup (FS.rmtree fs p) p = none := by
  induction fs with
  | nil => rfl
  | cons e rest ih =>
    obtain ⟨k, v⟩ := e
    by_cases hk : k = p
    · subst hk
      simp only [FS.rmtree, List.filter, beq_self_eq_true, Bool.not_true, Bool.false_and]
      simpa [FS.rmtree] using ih
    · simp only [FS.rmtree, List.filter]
      cases hcond : (!(k == p) && !(listStarts (p ++ "/").data k.data)) with
      | false => simpa [FS.rmtree] using ih
      | true =>
        simp only [alookup, if_neg hk]
        simpa [FS.rmtree] using ih

/-- The stage marker `<dir>/.DONE` lies strictly below `<dir>`, so `rmtree`
on the directory removes it. -/
theorem alookup_rmtree_pjoin (fs : FS) (p b : String) :
    alookup (FS.rmtree fs p) (pjoin p b) = none := by
  apply alookup_rmtree_under
  have h : pjoin p b = (p ++ "/") ++ b := by
    simp [pjoin, String.append_assoc]
  rw [h]
  exact strStarts_append (p ++ "/") b

/-! Lemmas about the hash-batch loop. -/

theorem processFiles_noerr (filesF : String → Option FileInfo)
    (worker : String → Option String) (cache : Cache) (cacheOnly : Bool)
    (l : List String) (hw : ∀ p, (worker p).isSome) :
    (processFiles filesF worker cache cacheOnly l).2.2.2 = none := by
  induction l with
  | nil => rfl
  | cons fp rest ih =>
    obtain ⟨h, hwfp⟩ := Option.isSome_iff_exists.mp (hw fp)
    cases hf : filesF fp with
    | none => simpa [processFiles, hf] using ih
    | some fi =>
      cases hc : alookup cache fp with
      | some e =>
        by_cases hm : (e.size == fi.size && e.birthtime == fi.ctime) = true
        · simpa [processFiles, hf, hc, hm] using ih
        · cases hco : cacheOnly
          · simpa [processFiles, hf, hc, hm, hco, hwfp] using ih
          · simpa [processFiles, hf, hc, hm, hco] using ih
      | none =>
        cases hco : cacheOnly
        · simpa [processFiles, hf, hc, hco, hwfp] using ih
        · simpa [processFiles, hf, hc, hco] using ih

theorem processFiles_hit (filesF : String → Option FileInfo)
    (worker : String → Option String) (cache : Cache) (cacheOnly : Bool)
    (l : List String) (fp : String) (e : CacheEntry) (fi : FileInfo)
    (hw : ∀ p, (worker p).isSome) (hfile : filesF fp = some fi)
    (hentry : alookup cache fp = some e) (hsz : e.size = fi.size)
    (ht : e.birthtime = fi.ctime) (hfp : fp ∈ l) :
    alookup (processFiles filesF worker cache cacheOnly l).1 fp =
      some (some e.sha256) := by
  induction l with
  | nil => cases hfp
  | cons q rest ih =>
    rcases List.mem_cons.mp hfp with hq | hq
    · subst hq
      simp [processFiles, hfile, hentry, hsz, ht, alookup]
    · have ihq := ih hq
      obtain ⟨h, hwq⟩ := Option.isSome_iff_exists.mp (hw q)
      by_cases hqfp : q = fp
      · subst hqfp
        simp [processFiles, hfile, hentry, hsz, ht, alookup]
      · cases hf : filesF q with
        | none => simpa [processFiles, hf, alookup, hqfp] using ihq
        | some fi2 =>
          cases hc : alookup cache q with
          | some e2 =>
            by_cases hm : (e2.size == fi2.size && e2.birthtime == fi2.ctime) = true
            · simpa [processFiles, hf, hc, hm, alookup, hqfp] using ihq
            · cases hco : cacheOnly
              · simpa [processFiles, hf, hc, hm, hco, hwq, alookup, hqfp] using ihq
              · simpa [processFiles, hf, hc, hm, hco, alookup, hqfp] using ihq
          | none =>
            cases hco : cacheOnly
            · simpa [processFiles, hf, hc, hco, hwq, alookup, hqfp] using ihq
            · simpa [processFiles, hf, hc, hco, alookup, hqfp] using ihq

theorem processFiles_hit_not_computed (filesF : String → Option FileInfo)
    (worker : String → Option String) (cache : Cache) (cacheOnly : Bool)
    (l : List String) (fp : String) (e : CacheEntry) (fi : FileInfo)
    (hfile : filesF fp = some fi) (hentry : alookup cache fp = some e)
    (hsz : e.size = fi.size) (ht : e.birthtime = fi.ctime) :
    fp ∉ (processFiles filesF worker cache cacheOnly l).2.2.1 := by
  induction l with
  | nil => simp [processFiles]
  | cons q rest ih =>
    by_cases hqfp : q = fp
    · subst hqfp
      simp [processFiles, hfile, hentry, hsz, ht]
      exact ih
    · cases hf : filesF q with
      | none => simpa [processFiles, hf] using ih
      | some fi2 =>
        cases hc : alookup cache q with
        | some e2 =>
          by_cases hm : (e2.size == fi2.size && e2.birthtime == fi2.ctime) = true
          · simpa [processFiles, hf, hc, hm] using ih
          · cases hco : cacheOnly
            · rw [hco] at ih
              cases hwq : worker q with
              | none =>
                simp only [processFiles, hf, hc, hm, hco, hwq, Bool.false_eq_true,
                  if_false, List.mem_singleton]
                exact fun hh => hqfp hh.symm
              | some h2 =>
                simp only [processFiles, hf, hc, hm, hco, hwq, Bool.false_eq_true,
                  if_false, List.mem_cons]
                rintro (hcontra | hcontra)
                · exact hqfp hcontra.symm
                · exact ih hcontra
            · simpa [processFiles, hf, hc, hm, hco] using ih
        | none =>
          cases hco : cacheOnly
          · rw [hco] at ih
            cases hwq : worker q with
            | none =>
              simp only [processFiles, hf, hc, hco, hwq, Bool.false_eq_true,
                if_false, List.mem_singleton]
              exact fun hh => hqfp hh.symm
            | some h2 =>
              simp only [processFiles, hf, hc, hco, hwq, Bool.false_eq_true,
                if_false, List.mem_cons]
              rintro (hcontra | hcontra)
              · exact hqfp hcontra.symm
              · exact ih hcontra
          · simpa [processFiles, hf, hc, hco] using ih

/-- One loop step in the recompute branch: the path's result is the fresh
worker hash, its bytes are read, and the new cache entry records hash, live
size and change-time. -/
theorem processFiles_cons_recompute (filesF : String → Option FileInfo)
    (worker : String → Option String) (cache : Cache)
    (rest : List String) (fp : String) (fi : FileInfo) (h : String)
    (hfile : filesF fp = some fi)
    (hinv : cacheValid cache fp fi = false) (hwfp : worker fp = some h) :
    processFiles filesF worker cache false (fp :: rest) =
      ((fp, some h) :: (processFiles filesF worker cache false rest).1,
       aupdate (processFiles filesF worker cache false rest).2.1 fp
         ⟨h, fi.size, fi.ctime⟩,
       fp :: (processFiles filesF worker cache false rest).2.2.1,
       (processFiles filesF worker cache false rest).2.2.2) := by
  cases hc : alookup cache fp with
  | some e =>
    have hm : (e.size == fi.size && e.birthtime == fi.ctime) = false := by
      have := hinv
      simp only [cacheValid, hc] at this
      exact this
    simp [processFiles, hfile, hc, hm, hwfp]
  | none => simp [processFiles, hfile, hc, hwfp]

/-- In the recompute branch the path's result is the fresh worker hash, its
bytes are read, and the new cache entry records hash, live size and
change-time. -/
theorem processFiles_recompute (filesF : String → Option FileInfo)
    (worker : String → Option String) (cache : Cache)
    (l : List String) (fp : String) (fi : FileInfo) (h : String)
    (hw : ∀ p, (worker p).isSome) (hfile : filesF fp = some fi)
    (hinv : cacheValid cache fp fi = false) (hwfp : worker fp = some h)
    (hfp : fp ∈ l) :
    alookup (processFiles filesF worker cache false l).1 fp = some (some h) ∧
    fp ∈ (processFiles filesF worker cache false l).2.2.1 ∧
    alookup (processFiles filesF worker cache false l).2.1 fp =
      some ⟨h, fi.size, fi.ctime⟩ := by
  induction l with
  | nil => cases hfp
  | cons q rest ih =>
    by_cases hqfp : q = fp
    · rw [hqfp,
        processFiles_cons_recompute filesF worker cache rest fp fi h hfile hinv hwfp]
      exact ⟨by simp [alookup], List.mem_cons_self _ _, alookup_aupdate_self _ _ _⟩
    · rcases List.mem_cons.mp hfp with hq | hq
      · exact absurd hq (fun hh => hqfp hh.symm)
      · have ihq := ih hq
        obtain ⟨h2, hwq⟩ := Option.isSome_iff_exists.mp (hw q)
        refine ⟨?_, ?_, ?_⟩ <;>
          cases hf : filesF q with
          | none =>
            simp only [processFiles, hf]
            first
            | simpa [alookup, hqfp] using ihq.1
            | simpa using ihq.2.1
            | simpa using ihq.2.2
          | some fi2 =>
            cases hc : alookup cache q with
            | some e2 =>
              by_cases hm : (e2.size == fi2.size && e2.birthtime == fi2.ctime) = true <;>
                simp only [processFiles, hf, hc, hm, hwq, Bool.false_eq_true, if_true,
                  if_false, eq_self_iff_true, ite_true, ite_false] <;>
                first
                | simpa [alookup, hqfp] using ihq.1
                | simpa [hqfp] using ihq.2.1
                | exact List.mem_cons_of_mem _ ihq.2.1
                | simpa [alookup_aupdate_ne _ _ _ _ (fun hh => hqfp hh.symm), hqfp]
                    using ihq.2.2
            | none =>
              simp only [processFiles, hf, hc, hwq]
              first
              | simpa [alookup, hqfp] using ihq.1
              | simpa [hqfp] using ihq.2.1
              | exact List.mem_cons_of_mem _ ihq.2.1
              | simpa [alookup_aupdate_ne _ _ _ _ (fun hh => hqfp hh.symm), hqfp]
                  using ihq.2.2

/-- Every binding the loop writes for `fp` into the fresh cache carries the
deterministic worker hash and live stat of `fp`. -/
theorem processFiles_newCache_unique (filesF : String → Option FileInfo)
    (worker : String → Option String) (cache : Cache) (cacheOnly : Bool)
    (l : List String) (fp : String) (fi : FileInfo) (h : String)
    (hfile : filesF fp = some fi) (hwfp : worker fp = some h) :
    ∀ v, (fp, v) ∈ (processFiles filesF worker cache cacheOnly l).2.1 →
      v = ⟨h, fi.size, fi.ctime⟩ := by
  induction l with
  | nil => intro v hv; simp [processFiles] at hv
  | cons q rest ih =>
    intro v hv
    by_cases hqfp : q = fp
    · subst hqfp
      cases hc : alookup cache q with
      | some e =>
        by_cases hm : (e.size == fi.size && e.birthtime == fi.ctime) = true
        · rw [processFiles] at hv
          simp only [hfile, hc, hm, if_true] at hv
          exact ih v hv
        · cases hco : cacheOnly
          · rw [processFiles] at hv
            rw [hco] at ih
            simp only [hfile, hc, hm, hco, hwfp, Bool.false_eq_true, if_false] at hv
            exact eq_of_mem_aupdate_self _ _ _ _ hv
          · rw [processFiles] at hv
            rw [hco] at ih
            simp only [hfile, hc, hm, hco, if_true, Bool.false_eq_true, if_false] at hv
            exact ih v hv
      | none =>
        cases hco : cacheOnly
        · rw [processFiles] at hv
          rw [hco] at ih
          simp only [hfile, hc, hco, hwfp, Bool.false_eq_true, if_false] at hv
          exact eq_of_mem_aupdate_self _ _ _ _ hv
        · rw [processFiles] at hv
          rw [hco] at ih
          simp only [hfile, hc, hco, if_true] at hv
          exact ih v hv
    · cases hf : filesF q with
      | none =>
        rw [processFiles] at hv
        simp only [hf] at hv
        exact ih v hv
      | some fi2 =>
        cases hc : alookup cache q with
        | some e2 =>
          by_cases hm : (e2.size == fi2.size && e2.birthtime == fi2.ctime) = true
          · rw [processFiles] at hv
            simp only [hf, hc, hm, if_true] at hv
            exact ih v hv
          · cases hco : cacheOnly
            · rw [hco] at ih
              cases hwq : worker q with
              | none =>
                rw [processFiles] at hv
                simp only [hf, hc, hm, hco, hwq, Bool.false_eq_true, if_false] at hv
                cases hv
              | some h2 =>
                rw [processFiles] at hv
                simp only [hf, hc, hm, hco, hwq, Bool.false_eq_true, if_false] at hv
                rcases List.mem_cons.mp hv with hh | hh
                · exact absurd (congrArg Prod.fst hh).symm hqfp
                · exact ih v (mem_of_mem_aerase hh)
            · rw [hco] at ih
              rw [processFiles] at hv
              simp only [hf, hc, hm, hco, if_true, Bool.false_eq_true, if_false] at hv
              exact ih v hv
        | none =>
          cases hco : cacheOnly
          · rw [hco] at ih
            cases hwq : worker q with
            | none =>
              rw [processFiles] at hv
              simp only [hf, hc, hco, hwq, Bool.false_eq_true, if_false] at hv
              cases hv
            | some h2 =>
              rw [processFiles] at hv
              simp only [hf, hc, hco, hwq, Bool.false_eq_true, if_false] at hv
              rcases List.mem_cons.mp hv with hh | hh
              · exact absurd (congrArg Prod.fst hh).symm hqfp
              · exact ih v (mem_of_mem_aerase hh)
          · rw [hco] at ih
            rw [processFiles] at hv
            simp only [hf, hc, hco, if_true] at hv
            exact ih v hv

theorem cacheUpdateAll_lookup_of_nmem (base : Cache) (l : Cache) (fp : String)
    (h : fp ∉ l.map Prod.fst) :
    alookup (cacheUpdateAll base l) fp = alookup base fp := by
  induction l generalizing base with
  | nil => rfl
  | cons e rest ih =>
    obtain ⟨q, w⟩ := e
    simp only [List.map_cons, List.mem_cons] at h
    push_neg at h
    rw [cacheUpdateAll, ih _ h.2]
    exact alookup_aupdate_ne _ _ _ _ h.1

theorem cacheUpdateAll_lookup_of_mem (base : Cache) (l : Cache) (fp : String)
    (e : CacheEntry) (hall : ∀ v, (fp, v) ∈ l → v = e) (hmem : ∃ v, (fp, v) ∈ l) :
    alookup (cacheUpdateAll base l) fp = some e := by
  induction l generalizing base with
  | nil => obtain ⟨v, hv⟩ := hmem; cases hv
  | cons a rest ih =>
    obtain ⟨q, w⟩ := a
    rw [cacheUpdateAll]
    by_cases hrest : fp ∈ rest.map Prod.fst
    · obtain ⟨a2, ha2, hfst⟩ := List.mem_map.mp hrest
      obtain ⟨q2, w2⟩ := a2
      have hq2 : q2 = fp := hfst
      subst hq2
      exact ih (aupdate base q w) (fun v hv => hall v (List.mem_cons_of_mem _ hv))
        ⟨w2, ha2⟩
    · obtain ⟨v, hv⟩ := hmem
      rcases List.mem_cons.mp hv with hh | hh
      · have hfq : fp = q := congrArg Prod.fst hh
        have hwe : w = e := hall w (by rw [hfq]; exact List.mem_cons_self _ _)
        rw [cacheUpdateAll_lookup_of_nmem _ _ _ hrest, hfq, ← hwe]
        exact alookup_aupdate_self base q w
      · exact absurd (List.mem_map.mpr ⟨(fp, v), hh, rfl⟩) hrest

theorem processFiles_missing (filesF : String → Option FileInfo)
    (worker : String → Option String) (cache : Cache) (cacheOnly : Bool)
    (l : List String) (fp : String)
    (hw : ∀ p, (worker p).isSome) (hmiss : filesF fp = none) (hfp : fp ∈ l) :
    alookup (processFiles filesF worker cache cacheOnly l).1 fp = some none := by
  induction l with
  | nil => cases hfp
  | cons q rest ih =>
    rcases List.mem_cons.mp hfp with hq | hq
    · subst hq
      simp [processFiles, hmiss, alookup]
    · have ihq := ih hq
      obtain ⟨h2, hwq⟩ := Option.isSome_iff_exists.mp (hw q)
      by_cases hqfp : q = fp
      · subst hqfp
        simp [processFiles, hmiss, alookup]
      · cases hf : filesF q with
        | none => simpa [processFiles, hf, alookup, hqfp] using ihq
        | some fi2 =>
          cases hc : alookup cache q with
          | some e2 =>
            by_cases hm : (e2.size == fi2.size && e2.birthtime == fi2.ctime) = true
            · simpa [processFiles, hf, hc, hm, alookup, hqfp] using ihq
            · cases hco : cacheOnly
              · simpa [processFiles, hf, hc, hm, hco, hwq, alookup, hqfp] using ihq
              · simpa [processFiles, hf, hc, hm, hco, alookup, hqfp] using ihq
          | none =>
            cases hco : cacheOnly
            · simpa [processFiles, hf, hc, hco, hwq, alookup, hqfp] using ihq
            · simpa [processFiles, hf, hc, hco, alookup, hqfp] using ihq

/-- With `cache_only` no worker ever runs (no file is read) and no abort is
possible. -/
theorem processFiles_cacheOnly (filesF : String → Option FileInfo)
    (worker : String → Option String) (cache : Cache) (l : List String) :
    (processFiles filesF worker cache true l).2.2.1 = [] ∧
    (processFiles filesF worker cache true l).2.2.2 = none := by
  induction l with
  | nil => exact ⟨rfl, rfl⟩
  | cons q rest ih =>
    cases hf : filesF q with
    | none => simpa [processFiles, hf] using ih
    | some fi2 =>
      cases hc : alookup cache q with
      | some e2 =>
        by_cases hm : (e2.size == fi2.size && e2.birthtime == fi2.ctime) = true
        · simpa [processFiles, hf, hc, hm] using ih
        · simpa [processFiles, hf, hc, hm] using ih
      | none => simpa [processFiles, hf, hc] using ih

/-- With `cache_only` a path lacking a valid cache entry gets the empty
sentinel. -/
theorem processFiles_cacheOnly_sentinel (filesF : String → Option FileInfo)
    (worker : String → Option String) (cache : Cache) (l : List String)
    (fp : String) (fi : FileInfo)
    (hfile : filesF fp = some fi) (hinv : cacheValid cache fp fi = false)
    (hfp : fp ∈ l) :
    alookup (processFiles filesF worker cache true l).1 fp = some (some "") := by
  induction l with
  | nil => cases hfp
  | cons q rest ih =>
    rcases List.mem_cons.mp hfp with hq | hq
    · subst hq
      cases hc : alookup cache fp with
      | some e =>
        have hm : (e.size == fi.size && e.birthtime == fi.ctime) = false := by
          have := hinv
          simp only [cacheValid, hc] at this
          exact this
        simp [processFiles, hfile, hc, hm, alookup]
      | none => simp [processFiles, hfile, hc, alookup]
    · have ihq := ih hq
      by_cases hqfp : q = fp
      · subst hqfp
        cases hc : alookup cache q with
        | some e =>
          have hm : (e.size == fi.size && e.birthtime == fi.ctime) = false := by
            have := hinv
            simp only [cacheValid, hc] at this
            exact this
          simp [processFiles, hfile, hc, hm, alookup]
        | none => simp [processFiles, hfile, hc, alookup]
      · cases hf : filesF q with
        | none => simpa [processFiles, hf, alookup, hqfp] using ihq
        | some fi2 =>
          cases hc : alookup cache q with
          | some e2 =>
            by_cases hm : (e2.size == fi2.size && e2.birthtime == fi2.ctime) = true
            · simpa [processFiles, hf, hc, hm, alookup, hqfp] using ihq
            · simpa [processFiles, hf, hc, hm, alookup, hqfp] using ihq
          | none => simpa [processFiles, hf, hc, alookup, hqfp] using ihq

/-! ## Claim C8 -/

/-- C8 (amended): when linking a store object to a workspace path, a target
that is a regular file makes `create_model_symlink` raise `RuntimeError`
rather than overwrite; a target that is a symlink whose referent exists is
unlinked and replaced, and the operation succeeds; but a target that is a
dangling symlink (referent no longer exists) is NOT replaced: `Path.exists`
follows the link and reports `False`, so control reaches `os.symlink`,
which raises `FileExistsError`. -/
theorem c8_link_conflict_semantics (fs : FS) (gp sha tp fn : String) :
    (∀ c, alookup fs (pjoin tp fn) = some (.file c) →
      create_model_symlink fs gp sha tp fn = .error "RuntimeError") ∧
    (∀ t, alookup fs (pjoin tp fn) = some (.symlink t) →
      FS.existsF fs (pjoin tp fn) = true →
      create_model_symlink fs gp sha tp fn =
        .ok (aupdate (aerase fs (pjoin tp fn)) (pjoin tp fn) (.symlink (pjoin gp sha)))) ∧
    (∀ t, alookup fs (pjoin tp fn) = some (.symlink t) →
      FS.existsF fs (pjoin tp fn) = false →
      create_model_symlink fs gp sha tp fn = .error "FileExistsError") := by
  refine ⟨fun c h => ?_, fun t h hex => ?_, fun t h hex => ?_⟩
  · simp [create_model_symlink, FS.existsF_file h, FS.isSymlink, h]
  · simp [create_model_symlink, hex, FS.isSymlink, h, os_symlink, alookup_aerase_self]
  · simp [create_model_symlink, hex, os_symlink, h]

/-- Witness for `c8_link_conflict_semantics` at concrete inputs: a
regular-file target, a live symlink target, and a dangling symlink target. -/
theorem c8_link_conflict_semantics_witness :
    create_model_symlink [(pjoin "ws" "f", .file "x")] "store" "s" "ws" "f" =
      .error "RuntimeError" ∧
    create_model_symlink [(pjoin "ws" "f", .symlink "store/old"), ("store/old", .file "y")]
      "store" "s" "ws" "f" =
      .ok (aupdate (aerase [(pjoin "ws" "f", .symlink "store/old"), ("store/old", .file "y")]
        (pjoin "ws" "f")) (pjoin "ws" "f") (.symlink (pjoin "store" "s"))) ∧
    create_model_symlink [(pjoin "ws" "f", .symlink "nowhere")] "store" "s" "ws" "f" =
      .error "FileExistsError" :=
  ⟨(c8_link_conflict_semantics [(pjoin "ws" "f", .file "x")] "store" "s" "ws" "f").1 "x" rfl,
   (c8_link_conflict_semantics [(pjoin "ws" "f", .symlink "store/old"), ("store/old", .file "y")]
     "store" "s" "ws" "f").2.1 "store/old" rfl (by decide),
   (c8_link_conflict_semantics [(pjoin "ws" "f", .symlink "nowhere")] "store" "s" "ws" "f").2.2
     "nowhere" rfl (by decide)⟩

/-- C8 counterexample: the claim says a stale symlink "including one whose
referent no longer exists" is replaced and the operation succeeds; but on a
dangling symlink the code raises `FileExistsError` instead of succeeding. -/
theorem c8_dangling_symlink_cex :
    create_model_symlink [(pjoin "ws" "f", .symlink "gone")] "store" "s" "ws" "f" =
      .error "FileExistsError" := by rfl

/-! ## Claim C1 -/

/-- C1 (evaluation at the failing input): one manifest entry with a remote
source, empty workspace and Store, the download succeeds and the content
hashes to the expected `deadbeef`.  After the resolution pass the Store
holds the content at `store/deadbeef`, but NO state of the pass ever
contains the workspace path: the success branch of the source download
(package.py line 372) is `else: continue` and never calls
`create_model_symlink`, unlike the parallel manual-input branch
(line 432). -/
theorem c1_download_success_no_symlink :
    (retrieveEntry demoOracle demoHash "store" "ws" demoEntry true false none [] []).2 =
      none ∧
    alookup ((retrieveEntry demoOracle demoHash "store" "ws" demoEntry true false none
      [] []).1.getLastD []) (pjoin "store" "deadbeef") = some (.file "CONTENT") ∧
    ∀ fs ∈ (retrieveEntry demoOracle demoHash "store" "ws" demoEntry true false none [] []).1,
      alookup fs (pjoin "ws" "checkpoints/a.safetensors") = none := by
  refine ⟨rfl, rfl, ?_⟩
  decide

/-! ## Claim C2 -/

/-- C2 counterexample: a download whose content (`"EVIL"`) hashes to a value
different from the expected `sha256` is staged directly at
`<store_root>/<sha256>` (the `download_file` destination is `MODEL_DIR / sha`,
package.py line 354), so between the download and the verification the
mismatched file IS present in the Store — refuting "at no point is that
file present in the Store". -/
theorem c2_staged_in_store_cex :
    demoHash "EVIL" ≠ "deadbeef" ∧
    (retrieveEntry demoOracleBad demoHash "store" "ws" demoEntry true false none
      [OpInput.skip] []).1.get? 1 =
      some [(pjoin "store" "deadbeef", FSNode.file "EVIL")] := by
  exact ⟨by decide, rfl⟩

/-- C2 (amended): a mismatched download is deleted from
`<store_root>/<sha256>` once verification fails (transient presence there is
unavoidable because the download is staged at the store path itself), the
workspace path is never touched, and the pass continues to manual
resolution instead of aborting; a mismatched operator-supplied local file is
rejected before any copy, leaving the filesystem untouched, and resolution
continues with the next operator input. -/
theorem c2_mismatch_never_kept (oracle : String → Option String) (hash : String → String)
    (store ws sha filename u c : String) (fs : FS) (tr : List FS)
    (horacle : oracle u = some c) (hmis : hash c ≠ sha)
    (hne : pjoin ws filename ≠ pjoin store sha) :
    (sourceStep oracle hash store ws sha filename (some u) [] fs tr =
      (tr ++ [aupdate fs (pjoin store sha) (.file c),
              aerase (aupdate fs (pjoin store sha) (.file c)) (pjoin store sha)], none)) ∧
    alookup (aerase (aupdate fs (pjoin store sha) (.file c)) (pjoin store sha))
      (pjoin store sha) = none ∧
    (∀ fs1 ∈ [aupdate fs (pjoin store sha) (.file c),
              aerase (aupdate fs (pjoin store sha) (.file c)) (pjoin store sha)],
       alookup fs1 (pjoin ws filename) = alookup fs (pjoin ws filename)) ∧
    (∀ p c2 fs2 tr2 rest, FS.existsF fs2 p = true → FS.readF fs2 p = some c2 →
       hash c2 ≠ sha →
       manualLoop oracle hash store ws sha filename (OpInput.localPath p :: rest) fs2 tr2 =
         manualLoop oracle hash store ws sha filename rest fs2 tr2) := by
  have hbeq : (hash c == sha) = false := by simpa using hmis
  refine ⟨?_, alookup_aerase_self _ _, ?_, ?_⟩
  · simp only [sourceStep, download_file, horacle]
    rw [FS.existsF_file (alookup_aupdate_self fs (pjoin store sha) (.file c))]
    rw [FS.readF_file (alookup_aupdate_self fs (pjoin store sha) (.file c))]
    simp [hbeq, manualLoop]
  · intro fs1 hmem
    simp only [List.mem_cons, List.mem_singleton] at hmem
    rcases hmem with h | h | h
    · subst h; exact alookup_aupdate_ne fs (pjoin ws filename) (pjoin store sha) _ hne
    · subst h
      rw [alookup_aerase_ne _ _ _ hne]
      exact alookup_aupdate_ne fs (pjoin ws filename) (pjoin store sha) _ hne
    · cases h
  · intro p c2 fs2 tr2 rest hex hread hmis2
    have hbeq2 : (hash c2 == sha) = false := by simpa using hmis2
    simp [manualLoop, hex, hread, hbeq2]

/-- Witness for `c2_mismatch_never_kept`: the mismatched download `"EVIL"`
against expected hash `"deadbeef"`, starting from an empty filesystem. -/
theorem c2_mismatch_never_kept_witness :
    sourceStep demoOracleBad demoHash "store" "ws" "deadbeef" "checkpoints/a.safetensors"
      (some "https://example/a.bin") [] [] [[]] =
      ([[], [(pjoin "store" "deadbeef", FSNode.file "EVIL")], []], none) :=
  (c2_mismatch_never_kept demoOracleBad demoHash "store" "ws" "deadbeef"
    "checkpoints/a.safetensors" "https://example/a.bin" "EVIL" [] [[]]
    rfl (by decide) (by decide)).1

/-! ## Claim C3 -/

/-- C3 counterexample: the target workspace path holds a plain file but the
Store already contains the entry's hash; the resolver does NOT adopt the
file and does NOT create a symlink — the entry is skipped with the plain
file left in place (package.py line 312 guards adoption with
`not (MODEL_DIR / sha).exists()`), refuting the unconditional claim. -/
theorem c3_store_hit_no_adoption_cex :
    retrieveEntry demoOracle demoHash "store" "ws"
      { sha256 := some "s1", filename := "f.bin", disabled := false, bundled := false,
        source := none } true false none []
      [(pjoin "ws" "f.bin", .file "AAA"), (pjoin "store" "s1", .file "BBB")] =
      ([[(pjoin "ws" "f.bin", .file "AAA"), (pjoin "store" "s1", .file "BBB")]], none) := by
  decide

/-- C3 (amended): a plain file at the target workspace path is adopted only
when the Store does not already contain the entry's `sha256`: then its
bytes move to `<store_root>/<sha256>` (exactly one store binding) and the
workspace path becomes a symlink to the store object, and the outcome is
independent of the network, the download flag, the package payload and
operator input (priority over all later steps); when the Store already
holds the hash the entry is skipped and the plain file stays in place. -/
theorem c3_adoption_guarded (oracle : String → Option String) (hash : String → String)
    (store ws : String) (m : ModelEntry) (sha c : String)
    (download all_models : Bool) (packDir : Option String) (inputs : List OpInput)
    (fs : FS) (hm : m.sha256 = some sha)
    (hws : alookup fs (pjoin ws m.filename) = some (.file c))
    (hne : pjoin ws m.filename ≠ pjoin store sha) :
    (alookup fs (pjoin store sha) = none →
      retrieveEntry oracle hash store ws m download all_models packDir inputs fs =
        ([fs,
          aupdate (aerase fs (pjoin ws m.filename)) (pjoin store sha) (.file c),
          aupdate (aupdate (aerase fs (pjoin ws m.filename)) (pjoin store sha) (.file c))
            (pjoin ws m.filename) (.symlink (pjoin store sha))], none) ∧
      alookup (aupdate (aupdate (aerase fs (pjoin ws m.filename)) (pjoin store sha)
          (.file c)) (pjoin ws m.filename) (.symlink (pjoin store sha)))
        (pjoin store sha) = some (.file c) ∧
      alookup (aupdate (aupdate (aerase fs (pjoin ws m.filename)) (pjoin store sha)
          (.file c)) (pjoin ws m.filename) (.symlink (pjoin store sha)))
        (pjoin ws m.filename) = some (.symlink (pjoin store sha)) ∧
      countKey (aupdate (aupdate (aerase fs (pjoin ws m.filename)) (pjoin store sha)
          (.file c)) (pjoin ws m.filename) (.symlink (pjoin store sha)))
        (pjoin store sha) = 1) ∧
    (∀ d, alookup fs (pjoin store sha) = some (.file d) →
      retrieveEntry oracle hash store ws m download all_models packDir inputs fs =
        ([fs], none)) := by
  have hne2 : pjoin store sha ≠ pjoin ws m.filename := fun h => hne h.symm
  constructor
  · intro h0
    have hfs1 : alookup (aupdate (aerase fs (pjoin ws m.filename)) (pjoin store sha)
        (.file c)) (pjoin ws m.filename) = none := by
      rw [alookup_aupdate_ne _ _ _ _ hne]
      exact alookup_aerase_self fs (pjoin ws m.filename)
    refine ⟨?_, ?_, alookup_aupdate_self _ _ _, ?_⟩
    · simp only [retrieveEntry, hm]
      rw [FS.existsF_file hws, FS.existsF_none h0, FS.isFileF_file hws]
      simp only [Bool.not_false, Bool.and_self, if_true, hws]
      simp [create_model_symlink, FS.existsF_none hfs1, os_symlink, hfs1]
    · rw [alookup_aupdate_ne _ _ _ _ hne2]
      exact alookup_aupdate_self _ _ _
    · rw [countKey_aupdate_ne _ _ _ _ hne2, countKey_aerase_ne _ _ _ hne2]
      exact countKey_aupdate_self _ _ _
  · intro d h0
    simp only [retrieveEntry, hm]
    rw [FS.existsF_file hws, FS.existsF_file h0]
    simp

/-- Witness for `c3_adoption_guarded`: a pre-existing plain file `"AAA"` at
the workspace path, adopted into an empty Store, plus the skip behaviour
when the Store already holds the hash. -/
theorem c3_adoption_guarded_witness :
    retrieveEntry demoOracle demoHash "store" "ws"
      { sha256 := some "s1", filename := "f.bin", disabled := false, bundled := false,
        source := none } true false none [] [(pjoin "ws" "f.bin", .file "AAA")] =
      ([[(pjoin "ws" "f.bin", .file "AAA")],
        aupdate (aerase [(pjoin "ws" "f.bin", .file "AAA")] (pjoin "ws" "f.bin"))
          (pjoin "store" "s1") (.file "AAA"),
        aupdate (aupdate (aerase [(pjoin "ws" "f.bin", .file "AAA")] (pjoin "ws" "f.bin"))
          (pjoin "store" "s1") (.file "AAA")) (pjoin "ws" "f.bin")
          (.symlink (pjoin "store" "s1"))], none) :=
  ((c3_adoption_guarded demoOracle demoHash "store" "ws"
    { sha256 := some "s1", filename := "f.bin", disabled := false, bundled := false,
      source := none } "s1" "AAA" true false none [] [(pjoin "ws" "f.bin", .file "AAA")]
    rfl (by decide) (by decide)).1 (by decide)).1

/-! ## Claim C4 -/

/-- C4: a stage (the ComfyUI runtime clone, and each custom-node clone) is
re-run — destructively, removing the existing target directory — exactly
when its `.DONE` marker is absent or records a different commit than the
requested one; and a failure of any sub-step (clone, manager clone, setup
script) aborts the stage before the marker is written, so the final state
has no marker.  The sanity hypotheses rule out filesystems where a marker
entry exists below a non-existent directory, which no real run produces. -/
theorem c4_marker_gated_stages (cloneOk : String → String → Bool) (runOk : String → Bool)
    (repo : String) (snap : Snapshot) (ws : String) (fs : FS) (m : ModuleSpec)
    (hsane : FS.existsF fs ws = false → alookup fs (pjoin ws ".DONE") = none)
    (hsaneM : FS.existsF fs (pjoin (pjoin ws "custom_nodes") (moduleDirName m.url)) = false →
      alookup fs (pjoin (pjoin (pjoin ws "custom_nodes") (moduleDirName m.url)) ".DONE") = none)
    (hurl : (strStrip m.url == "") = false) :
    ((FS.existsF fs ws && markerMatches fs (pjoin ws ".DONE") snap.comfyui) = true →
      install_comfyui cloneOk repo snap ws fs = (fs, [], none)) ∧
    ((FS.existsF fs ws && markerMatches fs (pjoin ws ".DONE") snap.comfyui) = false →
      Act.cloneA repo snap.comfyui ws ∈ (install_comfyui cloneOk repo snap ws fs).2.1 ∧
      (FS.existsF fs ws = true →
        Act.rmtreeA ws ∈ (install_comfyui cloneOk repo snap ws fs).2.1)) ∧
    ((FS.existsF fs ws && markerMatches fs (pjoin ws ".DONE") snap.comfyui) = false →
      ∀ e, (install_comfyui cloneOk repo snap ws fs).2.2 = some e →
        alookup (install_comfyui cloneOk repo snap ws fs).1 (pjoin ws ".DONE") = none) ∧
    ((FS.existsF fs (pjoin (pjoin ws "custom_nodes") (moduleDirName m.url)) &&
        markerMatches fs (pjoin (pjoin (pjoin ws "custom_nodes") (moduleDirName m.url)) ".DONE")
          m.commit_hash) = true →
      installModule cloneOk runOk ws m fs = (fs, [], none)) ∧
    ((FS.existsF fs (pjoin (pjoin ws "custom_nodes") (moduleDirName m.url)) &&
        markerMatches fs (pjoin (pjoin (pjoin ws "custom_nodes") (moduleDirName m.url)) ".DONE")
          m.commit_hash) = false →
      Act.cloneA m.url m.commit_hash (pjoin (pjoin ws "custom_nodes") (moduleDirName m.url)) ∈
        (installModule cloneOk runOk ws m fs).2.1 ∧
      (FS.existsF fs (pjoin (pjoin ws "custom_nodes") (moduleDirName m.url)) = true →
        Act.rmtreeA (pjoin (pjoin ws "custom_nodes") (moduleDirName m.url)) ∈
          (installModule cloneOk runOk ws m fs).2.1)) ∧
    ((FS.existsF fs (pjoin (pjoin ws "custom_nodes") (moduleDirName m.url)) &&
        markerMatches fs (pjoin (pjoin (pjoin ws "custom_nodes") (moduleDirName m.url)) ".DONE")
          m.commit_hash) = false →
      ∀ e, (installModule cloneOk runOk ws m fs).2.2 = some e →
        alookup (installModule cloneOk runOk ws m fs).1
          (pjoin (pjoin (pjoin ws "custom_nodes") (moduleDirName m.url)) ".DONE") = none) := by
  refine ⟨?_, ?_, ?_, ?_, ?_, ?_⟩
  · intro h; simp [install_comfyui, h]
  · intro h
    simp only [install_comfyui, h, Bool.false_eq_true, if_false]
    cases hmgr : (snap.git_custom_nodes.filter
        (fun e => strContains e.1 "ComfyUI-Manager")).head? with
    | none =>
      rcases Bool.eq_false_or_eq_true (FS.existsF fs ws) with hws | hws <;>
        rcases Bool.eq_false_or_eq_true (cloneOk repo snap.comfyui) with hc1 | hc1 <;>
          simp [hws, hc1, hmgr]
    | some mgr =>
      rcases Bool.eq_false_or_eq_true (FS.existsF fs ws) with hws | hws <;>
        rcases Bool.eq_false_or_eq_true (cloneOk repo snap.comfyui) with hc1 | hc1 <;>
          rcases Bool.eq_false_or_eq_true (cloneOk mgr.1 (strStrip mgr.2)) with hc2 | hc2 <;>
            simp [hws, hc1, hc2, hmgr]
  · intro h e herr
    revert herr
    simp only [install_comfyui, h, Bool.false_eq_true, if_false]
    cases hmgr : (snap.git_custom_nodes.filter
        (fun e => strContains e.1 "ComfyUI-Manager")).head? with
    | none =>
      rcases Bool.eq_false_or_eq_true (FS.existsF fs ws) with hws | hws <;>
        rcases Bool.eq_false_or_eq_true (cloneOk repo snap.comfyui) with hc1 | hc1 <;>
          simp only [hws, hc1, hmgr, Bool.false_eq_true, Bool.true_eq_false,
            eq_self_iff_true, if_true, if_false, ite_true, ite_false] <;>
            intro herr <;>
              first
              | exact herr.elim
              | exact Option.noConfusion herr
              | (rw [alookup_aupdate_ne _ _ _ _ (pjoin_ne_left ws ".DONE")]
                 first
                 | exact alookup_rmtree_pjoin fs ws ".DONE"
                 | exact hsane hws)
              | exact alookup_rmtree_pjoin fs ws ".DONE"
              | exact hsane hws
    | some mgr =>
      rcases Bool.eq_false_or_eq_true (FS.existsF fs ws) with hws | hws <;>
        rcases Bool.eq_false_or_eq_true (cloneOk repo snap.comfyui) with hc1 | hc1 <;>
          rcases Bool.eq_false_or_eq_true (cloneOk mgr.1 (strStrip mgr.2)) with hc2 | hc2 <;>
            simp only [hws, hc1, hc2, hmgr, Bool.false_eq_true, Bool.true_eq_false,
              eq_self_iff_true, if_true, if_false, ite_true, ite_false] <;>
              intro herr <;>
                first
                | exact herr.elim
                | exact Option.noConfusion herr
                | (rw [alookup_aupdate_ne _ _ _ _ (pjoin_ne_left ws ".DONE")]
                   first
                   | exact alookup_rmtree_pjoin fs ws ".DONE"
                   | exact hsane hws)
                | exact alookup_rmtree_pjoin fs ws ".DONE"
                | exact hsane hws
  · intro h; simp [installModule, hurl, h]
  · intro h
    simp only [installModule, hurl, h, Bool.false_eq_true, if_false]
    rcases Bool.eq_false_or_eq_true (FS.existsF fs (pjoin (pjoin ws "custom_nodes")
        (moduleDirName m.url))) with hws | hws <;>
      rcases Bool.eq_false_or_eq_true (cloneOk m.url m.commit_hash) with hc1 | hc1 <;>
        simp only [hws, hc1] <;> split_ifs <;> simp [hws, hc1]
  · intro h e herr
    revert herr
    simp only [installModule, hurl, h, Bool.false_eq_true, if_false]
    rcases Bool.eq_false_or_eq_true (FS.existsF fs (pjoin (pjoin ws "custom_nodes")
        (moduleDirName m.url))) with hws | hws <;>
      rcases Bool.eq_false_or_eq_true (cloneOk m.url m.commit_hash) with hc1 | hc1 <;>
        simp only [hws, hc1, Bool.false_eq_true, Bool.true_eq_false,
          eq_self_iff_true, if_true, if_false, ite_true, ite_false] <;>
          (try split_ifs) <;> (try dsimp only) <;> intro herr <;>
            first
            | exact herr.elim
            | exact Option.noConfusion herr
            | (rw [alookup_aupdate_ne _ _ _ _ (pjoin_ne_left _ ".DONE")]
               first
               | exact alookup_rmtree_pjoin fs _ ".DONE"
               | exact hsaneM hws)
            | exact alookup_rmtree_pjoin fs _ ".DONE"
            | exact hsaneM hws

/-- Witness for `c4_marker_gated_stages`: empty filesystem, all git and
subprocess calls succeeding. -/
theorem c4_marker_gated_stages_witness :
    ((FS.existsF [] "ws" && markerMatches [] (pjoin "ws" ".DONE") demoSnap.comfyui) = true →
      install_comfyui demoCloneOk "REPO" demoSnap "ws" [] = ([], [], none)) ∧
    ((FS.existsF [] "ws" && markerMatches [] (pjoin "ws" ".DONE") demoSnap.comfyui) = false →
      Act.cloneA "REPO" demoSnap.comfyui "ws" ∈
        (install_comfyui demoCloneOk "REPO" demoSnap "ws" []).2.1 ∧
      (FS.existsF [] "ws" = true →
        Act.rmtreeA "ws" ∈ (install_comfyui demoCloneOk "REPO" demoSnap "ws" []).2.1)) ∧
    ((FS.existsF [] "ws" && markerMatches [] (pjoin "ws" ".DONE") demoSnap.comfyui) = false →
      ∀ e, (install_comfyui demoCloneOk "REPO" demoSnap "ws" []).2.2 = some e →
        alookup (install_comfyui demoCloneOk "REPO" demoSnap "ws" []).1
          (pjoin "ws" ".DONE") = none) ∧
    ((FS.existsF [] (pjoin (pjoin "ws" "custom_nodes") (moduleDirName demoModule.url)) &&
        markerMatches [] (pjoin (pjoin (pjoin "ws" "custom_nodes")
          (moduleDirName demoModule.url)) ".DONE") demoModule.commit_hash) = true →
      installModule demoCloneOk demoRunOk "ws" demoModule [] = ([], [], none)) ∧
    ((FS.existsF [] (pjoin (pjoin "ws" "custom_nodes") (moduleDirName demoModule.url)) &&
        markerMatches [] (pjoin (pjoin (pjoin "ws" "custom_nodes")
          (moduleDirName demoModule.url)) ".DONE") demoModule.commit_hash) = false →
      Act.cloneA demoModule.url demoModule.commit_hash
        (pjoin (pjoin "ws" "custom_nodes") (moduleDirName demoModule.url)) ∈
        (installModule demoCloneOk demoRunOk "ws" demoModule []).2.1 ∧
      (FS.existsF [] (pjoin (pjoin "ws" "custom_nodes") (moduleDirName demoModule.url)) = true →
        Act.rmtreeA (pjoin (pjoin "ws" "custom_nodes") (moduleDirName demoModule.url)) ∈
          (installModule demoCloneOk demoRunOk "ws" demoModule []).2.1)) ∧
    ((FS.existsF [] (pjoin (pjoin "ws" "custom_nodes") (moduleDirName demoModule.url)) &&
        markerMatches [] (pjoin (pjoin (pjoin "ws" "custom_nodes")
          (moduleDirName demoModule.url)) ".DONE") demoModule.commit_hash) = false →
      ∀ e, (installModule demoCloneOk demoRunOk "ws" demoModule []).2.2 = some e →
        alookup (installModule demoCloneOk demoRunOk "ws" demoModule []).1
          (pjoin (pjoin (pjoin "ws" "custom_nodes") (moduleDirName demoModule.url))
            ".DONE") = none) :=
  c4_marker_gated_stages demoCloneOk demoRunOk "REPO" demoSnap "ws" [] demoModule
    (by intro h; rfl) (by intro h; rfl) (by decide)

/-! ## Claim C9 -/

/-- C9 counterexample: the dependency-provision stage records its completion
in a marker file named `DONE` (no leading dot) at the `.venv` directory
(package.py lines 159 and 205), not `.DONE` as the claim says for every
stage; no `.DONE` entry exists after a successful dependency install. -/
theorem c9_deps_marker_name_cex :
    (install_dependencies (fun _ => true) "ws" []).2.2 = none ∧
    alookup (install_dependencies (fun _ => true) "ws" []).1
      (pjoin (pjoin "ws" ".venv") "DONE") = some (.file "DONE") ∧
    alookup (install_dependencies (fun _ => true) "ws" []).1
      (pjoin (pjoin "ws" ".venv") ".DONE") = none := by
  refine ⟨rfl, rfl, rfl⟩

/-- C9 (amended): the runtime stage and each custom-node stage record their
completion in a plain-text `.DONE` marker at the stage's target directory
containing the pinned commit hash; the dependency stage records its
completion in a marker named `DONE` (no leading dot) inside the `.venv`
directory, containing the literal `DONE`, and writes nothing named
`.DONE` there. -/
theorem c9_stage_markers (cloneOk : String → String → Bool) (runOk : String → Bool)
    (repo : String) (snap : Snapshot) (ws : String) (fs fsd : FS) (m : ModuleSpec) :
    ((FS.existsF fs ws && markerMatches fs (pjoin ws ".DONE") snap.comfyui) = false →
      (install_comfyui cloneOk repo snap ws fs).2.2 = none →
      alookup (install_comfyui cloneOk repo snap ws fs).1 (pjoin ws ".DONE") =
        some (.file snap.comfyui)) ∧
    ((strStrip m.url == "") = false →
      (FS.existsF fs (pjoin (pjoin ws "custom_nodes") (moduleDirName m.url)) &&
        markerMatches fs (pjoin (pjoin (pjoin ws "custom_nodes") (moduleDirName m.url))
          ".DONE") m.commit_hash) = false →
      (installModule cloneOk runOk ws m fs).2.2 = none →
      alookup (installModule cloneOk runOk ws m fs).1
        (pjoin (pjoin (pjoin ws "custom_nodes") (moduleDirName m.url)) ".DONE") =
        some (.file m.commit_hash)) ∧
    (FS.existsF fsd (pjoin (pjoin ws ".venv") "DONE") = false →
      runOk "uv venv" = true → runOk "uv pip install pip" = true →
      runOk "uv pip install reqs" = true →
      (install_dependencies runOk ws fsd).2.2 = none ∧
      alookup (install_dependencies runOk ws fsd).1 (pjoin (pjoin ws ".venv") "DONE") =
        some (.file "DONE") ∧
      alookup (install_dependencies runOk ws fsd).1 (pjoin (pjoin ws ".venv") ".DONE") =
        alookup fsd (pjoin (pjoin ws ".venv") ".DONE")) := by
  refine ⟨?_, ?_, ?_⟩
  · intro hskip herr
    revert herr
    simp only [install_comfyui, hskip, Bool.false_eq_true, if_false]
    cases hmgr : (snap.git_custom_nodes.filter
        (fun e => strContains e.1 "ComfyUI-Manager")).head? with
    | none =>
      rcases Bool.eq_false_or_eq_true (FS.existsF fs ws) with hws | hws <;>
        rcases Bool.eq_false_or_eq_true (cloneOk repo snap.comfyui) with hc1 | hc1 <;>
          simp only [hws, hc1, hmgr, Bool.false_eq_true, Bool.true_eq_false,
            eq_self_iff_true, if_true, if_false, ite_true, ite_false] <;>
            intro herr <;>
              first
              | exact herr.elim
              | exact Option.noConfusion herr
    | some mgr =>
      rcases Bool.eq_false_or_eq_true (FS.existsF fs ws) with hws | hws <;>
        rcases Bool.eq_false_or_eq_true (cloneOk repo snap.comfyui) with hc1 | hc1 <;>
          rcases Bool.eq_false_or_eq_true (cloneOk mgr.1 (strStrip mgr.2)) with hc2 | hc2 <;>
            simp only [hws, hc1, hc2, hmgr, Bool.false_eq_true, Bool.true_eq_false,
              eq_self_iff_true, if_true, if_false, ite_true, ite_false] <;>
              intro herr <;>
                first
                | exact herr.elim
                | exact Option.noConfusion herr
                | exact alookup_aupdate_self _ _ _
  · intro hurl hskip herr
    revert herr
    simp only [installModule, hurl, hskip, Bool.false_eq_true, if_false]
    rcases Bool.eq_false_or_eq_true (FS.existsF fs (pjoin (pjoin ws "custom_nodes")
        (moduleDirName m.url))) with hws | hws <;>
      rcases Bool.eq_false_or_eq_true (cloneOk m.url m.commit_hash) with hc1 | hc1 <;>
        simp only [hws, hc1, Bool.false_eq_true, Bool.true_eq_false,
          eq_self_iff_true, if_true, if_false, ite_true, ite_false] <;>
          (try split_ifs) <;> (try dsimp only) <;> intro herr <;>
            first
            | exact herr.elim
            | exact Option.noConfusion herr
            | exact alookup_aupdate_self _ _ _
  · intro hmark h1 h2 h3
    have hdot : pjoin (pjoin ws ".venv") ".DONE" ≠ pjoin (pjoin ws ".venv") "DONE" :=
      pjoin_ne_of_ne (pjoin ws ".venv") (by decide)
    simp only [install_dependencies, hmark, h1, h2, h3, Bool.false_eq_true,
      Bool.true_eq_false, eq_self_iff_true, if_true, if_false, ite_true, ite_false,
      Bool.not_true, Bool.not_false]
    refine ⟨trivial, alookup_aupdate_self _ _ _, ?_⟩
    rw [alookup_aupdate_ne _ _ _ _ hdot]
    exact alookup_aupdate_ne _ _ _ _ (pjoin_ne_left (pjoin ws ".venv") ".DONE")

/-- Witness for `c9_stage_markers`: empty filesystems, everything succeeding. -/
theorem c9_stage_markers_witness :
    ((FS.existsF [] "ws" && markerMatches [] (pjoin "ws" ".DONE") demoSnap.comfyui) = false →
      (install_comfyui demoCloneOk "REPO" demoSnap "ws" []).2.2 = none →
      alookup (install_comfyui demoCloneOk "REPO" demoSnap "ws" []).1 (pjoin "ws" ".DONE") =
        some (.file demoSnap.comfyui)) ∧
    ((strStrip demoModule.url == "") = false →
      (FS.existsF [] (pjoin (pjoin "ws" "custom_nodes") (moduleDirName demoModule.url)) &&
        markerMatches [] (pjoin (pjoin (pjoin "ws" "custom_nodes")
          (moduleDirName demoModule.url)) ".DONE") demoModule.commit_hash) = false →
      (installModule demoCloneOk demoRunOk "ws" demoModule []).2.2 = none →
      alookup (installModule demoCloneOk demoRunOk "ws" demoModule []).1
        (pjoin (pjoin (pjoin "ws" "custom_nodes") (moduleDirName demoModule.url)) ".DONE") =
        some (.file demoModule.commit_hash)) ∧
    (FS.existsF [] (pjoin (pjoin "ws" ".venv") "DONE") = false →
      demoRunOk "uv venv" = true → demoRunOk "uv pip install pip" = true →
      demoRunOk "uv pip install reqs" = true →
      (install_dependencies demoRunOk "ws" []).2.2 = none ∧
      alookup (install_dependencies demoRunOk "ws" []).1 (pjoin (pjoin "ws" ".venv") "DONE") =
        some (.file "DONE") ∧
      alookup (install_dependencies demoRunOk "ws" []).1 (pjoin (pjoin "ws" ".venv") ".DONE") =
        alookup ([] : FS) (pjoin (pjoin "ws" ".venv") ".DONE")) :=
  c9_stage_markers demoCloneOk demoRunOk "REPO" demoSnap "ws" [] [] demoModule

/-! ## Claim C5 -/

theorem mem_of_alookup {α : Type} {l : List (String × α)} {p : String} {v : α}
    (h : alookup l p = some v) : (p, v) ∈ l := by
  induction l with
  | nil => cases h
  | cons e rest ih =>
    obtain ⟨k, w⟩ := e
    by_cases hk : k = p
    · subst hk
      simp only [alookup, if_pos rfl] at h
      injection h with h2
      subst h2
      exact List.mem_cons_self _ _
    · simp only [alookup, if_neg hk] at h
      exact List.mem_cons_of_mem _ (ih h)

/-- C5: a batch request returns the cached sha256 without reading the file
whenever the cached size and change-time both match the live file; when
either differs (and the batch is not cache-only), the hash is recomputed by
a worker, the file is read, and the merged cache written at batch end holds
the overwritten entry with the fresh hash and live stat. -/
theorem c5_cache_validity (filesF : String → Option FileInfo)
    (worker : String → Option String) (c c2 : Cache) (writeOk cacheOnly : Bool)
    (filepaths : List String) (fp : String) (e : CacheEntry) (fi : FileInfo) (h : String)
    (hw : ∀ p, (worker p).isSome) (hfile : filesF fp = some fi)
    (hentry : alookup c fp = some e) (hfp : fp ∈ filepaths) :
    (e.size = fi.size → e.birthtime = fi.ctime →
      alookup (async_batch_get_sha256 filesF worker (.good c) (.good c2) writeOk
          filepaths cacheOnly).results fp = some (some e.sha256) ∧
      fp ∉ (async_batch_get_sha256 filesF worker (.good c) (.good c2) writeOk
          filepaths cacheOnly).computed) ∧
    (cacheOnly = false → writeOk = true →
      ¬(e.size = fi.size ∧ e.birthtime = fi.ctime) → worker fp = some h →
      alookup (async_batch_get_sha256 filesF worker (.good c) (.good c2) writeOk
          filepaths cacheOnly).results fp = some (some h) ∧
      fp ∈ (async_batch_get_sha256 filesF worker (.good c) (.good c2) writeOk
          filepaths cacheOnly).computed ∧
      ∃ merged, (async_batch_get_sha256 filesF worker (.good c) (.good c2) writeOk
          filepaths cacheOnly).written = some merged ∧
        alookup merged fp = some ⟨h, fi.size, fi.ctime⟩) := by
  have herr := processFiles_noerr filesF worker c cacheOnly filepaths hw
  constructor
  · intro hsz ht
    have hr := processFiles_hit filesF worker c cacheOnly filepaths fp e fi hw hfile
      hentry hsz ht hfp
    have hnc := processFiles_hit_not_computed filesF worker c cacheOnly filepaths fp e fi
      hfile hentry hsz ht
    simp only [async_batch_get_sha256, herr]
    cases writeOk <;> exact ⟨hr, hnc⟩
  · intro hco hwr hmis hwfp
    subst hco
    subst hwr
    have hinv : cacheValid c fp fi = false := by
      simp only [cacheValid, hentry]
      cases hb : (e.size == fi.size && e.birthtime == fi.ctime)
      · rfl
      · have hb2 : e.size = fi.size ∧ e.birthtime = fi.ctime := by simpa using hb
        exact absurd hb2 hmis
    have hrec := processFiles_recompute filesF worker c filepaths fp fi h hw hfile
      hinv hwfp hfp
    have huniq := processFiles_newCache_unique filesF worker c false filepaths fp fi h
      hfile hwfp
    simp only [async_batch_get_sha256, herr]
    refine ⟨hrec.1, hrec.2.1, ⟨_, rfl, ?_⟩⟩
    exact cacheUpdateAll_lookup_of_mem c2 _ fp ⟨h, fi.size, fi.ctime⟩ huniq
      ⟨_, mem_of_alookup hrec.2.2⟩

/-- Witness for `c5_cache_validity`: path `a` of size 10 / ctime 5, once with
a matching cache entry (cached value `CACHED` returned, file not read) and
once with a stale one (fresh hash `HA` computed and written back). -/
theorem c5_cache_validity_witness :
    (10 = 10 → 5 = 5 →
      alookup (async_batch_get_sha256 demoFiles demoWorker
          (.good [("a", ⟨"CACHED", 10, 5⟩)]) (.good []) true ["a"] false).results "a" =
        some (some "CACHED") ∧
      "a" ∉ (async_batch_get_sha256 demoFiles demoWorker
          (.good [("a", ⟨"CACHED", 10, 5⟩)]) (.good []) true ["a"] false).computed) ∧
    (false = false → true = true → ¬(9 = 10 ∧ 5 = 5) → demoWorker "a" = some "HA" →
      alookup (async_batch_get_sha256 demoFiles demoWorker
          (.good [("a", ⟨"STALE", 9, 5⟩)]) (.good []) true ["a"] false).results "a" =
        some (some "HA") ∧
      "a" ∈ (async_batch_get_sha256 demoFiles demoWorker
          (.good [("a", ⟨"STALE", 9, 5⟩)]) (.good []) true ["a"] false).computed ∧
      ∃ merged, (async_batch_get_sha256 demoFiles demoWorker
          (.good [("a", ⟨"STALE", 9, 5⟩)]) (.good []) true ["a"] false).written =
            some merged ∧
        alookup merged "a" = some ⟨"HA", 10, 5⟩) :=
  ⟨(c5_cache_validity demoFiles demoWorker [("a", ⟨"CACHED", 10, 5⟩)] [] true false
      ["a"] "a" ⟨"CACHED", 10, 5⟩ ⟨10, 5⟩ "HA" (by intro p; simp [demoWorker]; split_ifs <;> simp)
      rfl rfl (by decide)).1,
   (c5_cache_validity demoFiles demoWorker [("a", ⟨"STALE", 9, 5⟩)] [] true false
      ["a"] "a" ⟨"STALE", 9, 5⟩ ⟨10, 5⟩ "HA" (by intro p; simp [demoWorker]; split_ifs <;> simp)
      rfl rfl (by decide)).2⟩

/-! ## Claim C6 -/

/-- C6 counterexample: in the batch `["a", "b"]` the worker for `a` exits
non-zero (the `assert` in `calculate_sha256_worker` raises); the exception
propagates out of the whole loop: `b` — whose worker would succeed — gets no
result, no cache is saved, and the batch raises.  This refutes "a single
file's hash-computation failure aborts only that file's computation ...
never the whole batch". -/
theorem c6_worker_failure_aborts_batch_cex :
    demoWorkerFail "b" = some "HB" ∧
    (async_batch_get_sha256 demoFiles demoWorkerFail (.good []) (.good []) true
      ["a", "b"] false).err = some "AssertionError" ∧
    alookup (async_batch_get_sha256 demoFiles demoWorkerFail (.good []) (.good []) true
      ["a", "b"] false).results "b" = none ∧
    (async_batch_get_sha256 demoFiles demoWorkerFail (.good []) (.good []) true
      ["a", "b"] false).written = none :=
  ⟨rfl, rfl, rfl, rfl⟩

/-- C6 (amended): a missing input file yields a null hash for its path
without aborting the batch; with `cache_only` a path lacking a valid cache
entry yields the empty sentinel and no hash is ever computed; but a single
worker failure is NOT isolated: the `AssertionError` aborts the whole batch,
later paths get no result and the cache is not saved. -/
theorem c6_batch_error_modes (filesF : String → Option FileInfo)
    (worker : String → Option String) (c c2 : Cache) (writeOk : Bool)
    (l rest : List String) (fp : String) (fi : FileInfo) :
    ((∀ p, (worker p).isSome) → filesF fp = none → fp ∈ l →
      (async_batch_get_sha256 filesF worker (.good c) (.good c2) writeOk l false).err =
        none ∧
      alookup (async_batch_get_sha256 filesF worker (.good c) (.good c2) writeOk l
        false).results fp = some none) ∧
    (filesF fp = some fi → cacheValid c fp fi = false → fp ∈ l →
      (async_batch_get_sha256 filesF worker (.good c) (.good c2) writeOk l true).computed =
        [] ∧
      (async_batch_get_sha256 filesF worker (.good c) (.good c2) writeOk l true).err =
        none ∧
      alookup (async_batch_get_sha256 filesF worker (.good c) (.good c2) writeOk l
        true).results fp = some (some "")) ∧
    (filesF fp = some fi → alookup c fp = none → worker fp = none →
      async_batch_get_sha256 filesF worker (.good c) (.good c2) writeOk (fp :: rest)
        false = ⟨[], [fp], none, some "AssertionError"⟩) := by
  refine ⟨?_, ?_, ?_⟩
  · intro hw hmiss hfp
    have herr := processFiles_noerr filesF worker c false l hw
    have hr := processFiles_missing filesF worker c false l fp hw hmiss hfp
    simp only [async_batch_get_sha256, herr]
    cases writeOk <;> exact ⟨rfl, hr⟩
  · intro hfile hinv hfp
    have hcon := processFiles_cacheOnly filesF worker c l
    have hr := processFiles_cacheOnly_sentinel filesF worker c l fp fi hfile hinv hfp
    simp only [async_batch_get_sha256, hcon.2]
    cases writeOk <;> exact ⟨hcon.1, rfl, hr⟩
  · intro hfile hc hwfp
    simp [async_batch_get_sha256, processFiles, hfile, hc, hwfp]

/-- Witness for `c6_batch_error_modes`: the missing path `missing`, a
cache-only request for `a`, and the aborting batch headed by the failing
path `a`. -/
theorem c6_batch_error_modes_witness :
    ((∀ p, (demoWorker p).isSome) → demoFiles "missing" = none → "missing" ∈ ["missing"] →
      (async_batch_get_sha256 demoFiles demoWorker (.good []) (.good []) true ["missing"]
        false).err = none ∧
      alookup (async_batch_get_sha256 demoFiles demoWorker (.good []) (.good []) true
        ["missing"] false).results "missing" = some none) ∧
    (demoFiles "a" = some ⟨10, 5⟩ → cacheValid [] "a" ⟨10, 5⟩ = false → "a" ∈ ["a"] →
      (async_batch_get_sha256 demoFiles demoWorker (.good []) (.good []) true ["a"]
        true).computed = [] ∧
      (async_batch_get_sha256 demoFiles demoWorker (.good []) (.good []) true ["a"]
        true).err = none ∧
      alookup (async_batch_get_sha256 demoFiles demoWorker (.good []) (.good []) true
        ["a"] true).results "a" = some (some "")) ∧
    (demoFiles "a" = some ⟨10, 5⟩ → alookup ([] : Cache) "a" = none →
      demoWorkerFail "a" = none →
      async_batch_get_sha256 demoFiles demoWorkerFail (.good []) (.good []) true
        ["a", "b"] false = ⟨[], ["a"], none, some "AssertionError"⟩) := by
  have hmain := c6_batch_error_modes demoFiles demoWorker [] [] true ["missing"] []
    "missing" ⟨10, 5⟩
  have hmain2 := c6_batch_error_modes demoFiles demoWorker [] [] true ["a"] [] "a" ⟨10, 5⟩
  have hmain3 := c6_batch_error_modes demoFiles demoWorkerFail [] [] true ["a", "b"] ["b"]
    "a" ⟨10, 5⟩
  exact ⟨hmain.1, hmain2.2.1, hmain3.2.2⟩

/-! ## Claim C7 -/

/-- C7 counterexample: the persisted cache file is corrupt when re-read at
the end of a batch (the read-merge-write phase, hash.py lines 113-115): the
`except` clause there names only `IOError` and `OSError`, so the
`json.JSONDecodeError` escapes and the whole batch call raises — refuting
"treated as an empty cache and never fatal ... in both the load phase and
the read-merge-write phase". -/
theorem c7_save_phase_corrupt_fatal_cex :
    (async_batch_get_sha256 demoFiles demoWorker (.good []) .corrupt true ["a"]
      false).err = some "JSONDecodeError" := rfl

/-- C7 (amended): an unreadable or corrupt cache file at the LOAD phase is
treated exactly as an absent one (empty cache) and is not fatal; a failure
of the final write is swallowed; but a corrupt cache file at the batch-end
read-merge-write phase raises `json.JSONDecodeError` out of the whole call. -/
theorem c7_cache_corruption_handling (filesF : String → Option FileInfo)
    (worker : String → Option String) (loadC : CacheFile) (c2 : Cache)
    (writeOk : Bool) (l : List String) (co : Bool) :
    (∀ saveC wOk, async_batch_get_sha256 filesF worker .corrupt saveC wOk l co =
      async_batch_get_sha256 filesF worker .absent saveC wOk l co) ∧
    ((∀ p, (worker p).isSome) →
      (async_batch_get_sha256 filesF worker .corrupt (.good c2) writeOk l co).err =
        none) ∧
    ((∀ p, (worker p).isSome) →
      (async_batch_get_sha256 filesF worker loadC (.good c2) false l co).err = none ∧
      (async_batch_get_sha256 filesF worker loadC (.good c2) false l co).written =
        none) ∧
    ((∀ p, (worker p).isSome) →
      (async_batch_get_sha256 filesF worker loadC .corrupt writeOk l co).err =
        some "JSONDecodeError") := by
  refine ⟨fun saveC wOk => rfl, ?_, ?_, ?_⟩
  · intro hw
    have herr := processFiles_noerr filesF worker [] co l hw
    simp only [async_batch_get_sha256, herr]
    cases writeOk <;> rfl
  · intro hw
    have herr := processFiles_noerr filesF worker
      (match loadC with | .good c => c | _ => []) co l hw
    simp only [async_batch_get_sha256, herr]
    exact ⟨rfl, rfl⟩
  · intro hw
    have herr := processFiles_noerr filesF worker
      (match loadC with | .good c => c | _ => []) co l hw
    simp only [async_batch_get_sha256, herr]

/-- Witness for `c7_cache_corruption_handling` at a concrete batch. -/
theorem c7_cache_corruption_handling_witness :
    (∀ saveC wOk, async_batch_get_sha256 demoFiles demoWorker .corrupt saveC wOk ["a"]
        false =
      async_batch_get_sha256 demoFiles demoWorker .absent saveC wOk ["a"] false) ∧
    ((∀ p, (demoWorker p).isSome) →
      (async_batch_get_sha256 demoFiles demoWorker .corrupt (.good []) true ["a"]
        false).err = none) ∧
    ((∀ p, (demoWorker p).isSome) →
      (async_batch_get_sha256 demoFiles demoWorker (.good []) (.good []) false ["a"]
        false).err = none ∧
      (async_batch_get_sha256 demoFiles demoWorker (.good []) (.good []) false ["a"]
        false).written = none) ∧
    ((∀ p, (demoWorker p).isSome) →
      (async_batch_get_sha256 demoFiles demoWorker (.good []) .corrupt true ["a"]
        false).err = some "JSONDecodeError") :=
  c7_cache_corruption_handling demoFiles demoWorker (.good []) [] true ["a"] false

/-! ## Claim C10 -/

/-- C10: when packaging with bundling enabled, an enabled model entry with a
filename, an existing file, and no computed sha256, is assigned
`sha256 := SHA-256(filename)` — the hash of the (UTF-8) filename string, not
of the file content — and `bundled := true`; so whenever the file's true
content hash differs from the filename hash, the bundle key does not match
the content hash. -/
theorem c10_bundle_sha_is_filename_hash (hashStr : String → String)
    (fileAt : String → Bool) (models : List BundleModel) (i : Nat) (m : BundleModel)
    (hm : models[i]? = some m) (hdis : m.disabled = false)
    (hfn : (m.filename == "") = false) (hex : fileAt m.filename = true)
    (hsha : shaFalsy m.sha256 = true) :
    (update_model_metadata_for_bundling hashStr fileAt models)[i]? =
      some { m with sha256 := some (hashStr m.filename), bundled := true } ∧
    ∀ contentHash : String, contentHash ≠ hashStr m.filename →
      ({ m with sha256 := some (hashStr m.filename), bundled := true } :
        BundleModel).sha256 ≠ some contentHash := by
  constructor
  · rw [update_model_metadata_for_bundling, List.getElem?_map, hm]
    simp [updateModelForBundling, hdis, hfn, hex, hsha]
  · intro ch hne
    simp only [ne_eq, Option.some.injEq]
    exact fun hh => hne hh.symm

/-- Witness for `c10_bundle_sha_is_filename_hash`: a one-entry model list
with no sha256; the assigned key is the hash of the filename string. -/
theorem c10_bundle_sha_is_filename_hash_witness :
    (update_model_metadata_for_bundling demoHash (fun _ => true)
        [{ filename := "checkpoints/a.safetensors", sha256 := none,
           disabled := false, bundled := false }])[0]? =
      some { filename := "checkpoints/a.safetensors",
             sha256 := some (demoHash "checkpoints/a.safetensors"),
             disabled := false, bundled := true } ∧
    ∀ contentHash : String, contentHash ≠ demoHash "checkpoints/a.safetensors" →
      ({ filename := "checkpoints/a.safetensors",
         sha256 := some (demoHash "checkpoints/a.safetensors"),
         disabled := false, bundled := true } : BundleModel).sha256 ≠ some contentHash :=
  c10_bundle_sha_is_filename_hash demoHash (fun _ => true)
    [{ filename := "checkpoints/a.safetensors", sha256 := none,
       disabled := false, bundled := false }] 0
    { filename := "checkpoints/a.safetensors", sha256 := none,
      disabled := false, bundled := false }
    rfl rfl (by decide) rfl rfl

end ComfyPack
